import Mathlib

/-!
# Upload handler of `gcs-with-blob-issue` (`handler.go`)

A shallow embedding of `handleUploadImage` and of the library functions it
calls, followed by the properties of the upload pipeline.

* Go strings are embedded as `String`; the functions of package `path` only
  inspect the ASCII bytes `/` and `.`, which UTF-8 never uses inside a
  multi-byte sequence, so scanning characters agrees with scanning bytes.
* Go errors are embedded by their message (`err.Error()`), a `String`.
* The hosted services (object store, blob resolver, URL resolver) are a record
  of state-passing operations, `Services`; every call the handler makes goes
  through a wrapper that also appends the call to a log.
-/

set_option autoImplicit false

namespace GcsBlob

/-! ## Package `path` -/

/-- Scan of `path.Ext`: `before` is `path[:i+1]` reversed, `after` is
`path[i+1:]`. The Go loop runs `i` downwards while `path[i] != '/'` and
returns `path[i:]` at the first dot. -/
def extScan : List Char → List Char → List Char
  | [], _ => []
  | c :: before, after =>
    if c == '/' then []
    else if c == '.' then c :: after
    else extScan before (c :: after)

/-- Go `path.Ext`: the suffix beginning at the final dot in the final
slash-separated element of `path`; empty if there is no dot. -/
def Ext (path : String) : String :=
  String.mk (extScan path.data.reverse [])

/-- Inner loop of the `..` case of `path.Clean`, entered after `out.w--`:
`for out.w > dotdot && out.index(out.w) != '/' { out.w-- }`. The argument is
the current `out.w`, the result the final one. -/
def backtrackTo (buf : List Char) (dotdot : Nat) : Nat → Nat
  | 0 => 0
  | w + 1 =>
    if w + 1 > dotdot && buf.getD (w + 1) '/' != '/' then backtrackTo buf dotdot w
    else w + 1

/-- The `can backtrack` branch of `path.Clean`: drop the last element of the
buffer, down to `dotdot`. -/
def backtrack (out : List Char) (dotdot : Nat) : List Char :=
  out.take (backtrackTo out dotdot (out.length - 1))

/-- Main loop of Go `path.Clean`. `rest` is `path[r:]`, `out` the bytes written
so far (`lazybuf` holds exactly these `out.w` bytes, whether or not it has
allocated its own buffer), `dotdot` the index where `..` must stop. Every
iteration consumes at least one byte of `rest`, so `rest.length` iterations
are enough; the first argument bounds the iterations. -/
def cleanLoop (rooted : Bool) : Nat → List Char → List Char → Nat → List Char
  | 0, _, out, _ => out
  | fuel + 1, rest, out, dotdot =>
    match rest with
    | [] => out
    | c :: t =>
      if c == '/' then
        -- empty path element
        cleanLoop rooted fuel t out dotdot
      else if c == '.' && (t.isEmpty || t.head? == some '/') then
        -- . element
        cleanLoop rooted fuel t out dotdot
      else if c == '.' && t.head? == some '.'
          && (t.tail.isEmpty || t.tail.head? == some '/') then
        -- .. element: remove to last /
        if out.length > dotdot then
          cleanLoop rooted fuel t.tail (backtrack out dotdot) dotdot
        else if !rooted then
          let out1 := if out.length > 0 then out ++ ['/'] else out
          let out2 := out1 ++ ['.', '.']
          cleanLoop rooted fuel t.tail out2 out2.length
        else
          cleanLoop rooted fuel t.tail out dotdot
      else
        -- real path element: add slash if needed, copy element
        let out1 :=
          if (rooted && out.length != 1) || (!rooted && out.length != 0) then out ++ ['/']
          else out
        cleanLoop rooted fuel (rest.dropWhile (· != '/'))
          (out1 ++ rest.takeWhile (· != '/')) dotdot

/-- Go `path.Clean` on the characters of the path. -/
def cleanChars (path : List Char) : List Char :=
  match path with
  | [] => ['.']
  | c :: t =>
    let rooted := c == '/'
    let out :=
      if rooted then cleanLoop true path.length t ['/'] 1
      else cleanLoop false path.length path [] 0
    if out.length == 0 then ['.'] else out

/-- Go `path.Clean`: the shortest path name equivalent to `path` by purely
lexical processing. -/
def Clean (path : String) : String :=
  String.mk (cleanChars path.data)

/-- The loop of Go `path.Join` that builds the buffer: an element is appended,
after a separating slash when the buffer is non-empty, unless the buffer and
the element are both empty. -/
def joinBuf : List String → String → String
  | [], buf => buf
  | e :: es, buf =>
    if buf.length > 0 || e != "" then
      joinBuf es ((if buf.length > 0 then buf ++ "/" else buf) ++ e)
    else joinBuf es buf

/-- Go `path.Join`: joins the elements with slashes, ignoring empty elements,
and cleans the result; all elements empty gives the empty string. -/
def Join (elem : List String) : String :=
  let size := (elem.map String.length).sum
  if size == 0 then "" else Clean (joinBuf elem "")

/-- A path element that `path.Clean` copies unchanged: non-empty, without a
slash, and neither `.` nor `..`. -/
def IsElem (e : List Char) : Prop :=
  e ≠ [] ∧ '/' ∉ e ∧ e ≠ ['.'] ∧ e ≠ ['.', '.']

instance (e : List Char) : Decidable (IsElem e) := by
  unfold IsElem; infer_instance

/-- The slash `path.Clean` writes before a real path element. -/
def sep (rooted : Bool) (out : List Char) : List Char :=
  if (rooted && out.length != 1) || (!rooted && out.length != 0) then out ++ ['/'] else out

/-- A file name that is a single clean path element: non-empty, without a
slash, and neither `.` nor `..`. -/
def CleanName (f : String) : Prop :=
  f ≠ "" ∧ '/' ∉ f.data ∧ f ≠ "." ∧ f ≠ ".."

instance (f : String) : Decidable (CleanName f) := by
  unfold CleanName; infer_instance

/-! ## Package `mime` -/

/-- The tables consulted by Go `mime.TypeByExtension` once `initMime` has run:
the case-sensitive table, the lower-case table, and `strings.ToLower` (used
only for extensions with non-ASCII bytes). A runtime that looks extensions up
case-sensitively only (Go 1.4) has an empty lower-case table. -/
structure MimeTables where
  mimeTypes : List (String × String)
  mimeTypesLower : List (String × String)
  toLower : String → String

/-- The table built into package `mime` (Go 1.4/1.5, contemporary with the
handler); a local `mime.types` file may add entries to the tables at run time. -/
def builtinTypesLower : List (String × String) :=
  [(".css", "text/css; charset=utf-8"),
   (".gif", "image/gif"),
   (".htm", "text/html; charset=utf-8"),
   (".html", "text/html; charset=utf-8"),
   (".jpg", "image/jpeg"),
   (".js", "application/x-javascript"),
   (".pdf", "application/pdf"),
   (".png", "image/png"),
   (".xml", "text/xml; charset=utf-8")]

/-- The tables of a runtime with the built-in entries only. -/
def builtinTables : MimeTables :=
  { mimeTypes := builtinTypesLower
    mimeTypesLower := builtinTypesLower
    toLower := fun s => s.map Char.toLower }

/-- Case-insensitive part of `mime.TypeByExtension`: the bytes of `ext` still
to scan and the lower-cased bytes so far. A byte `>= 0x80` takes the slow path
through `strings.ToLower`. -/
def lowerLookup (T : MimeTables) (ext : String) : List Char → List Char → String
  | [], lower => (T.mimeTypesLower.lookup (String.mk lower)).getD ""
  | c :: cs, lower =>
    if c.toNat ≥ 0x80 then (T.mimeTypesLower.lookup (T.toLower ext)).getD ""
    else if 'A' ≤ c ∧ c ≤ 'Z' then
      lowerLookup T ext cs (lower ++ [Char.ofNat (c.toNat + ('a'.toNat - 'A'.toNat))])
    else lowerLookup T ext cs (lower ++ [c])

/-- Go `mime.TypeByExtension`: the MIME type associated with the file
extension, `""` when the extension has no associated type. -/
def TypeByExtension (T : MimeTables) (ext : String) : String :=
  match T.mimeTypes.lookup ext with
  | some v => v
  | none => lowerLookup T ext ext.data []

/-- The key that `mime.TypeByExtension` looks up in the lower-case table:
`strings.ToLower` of the extension when it has a byte `>= 0x80`, and the
extension with its ASCII capitals lowered otherwise. -/
def lowerExt (T : MimeTables) (ext : String) : String :=
  if ext.data.any (fun c => decide (c.toNat ≥ 0x80)) then T.toLower ext
  else String.mk (ext.data.map (fun c =>
    if 'A' ≤ c ∧ c ≤ 'Z' then Char.ofNat (c.toNat + ('a'.toNat - 'A'.toNat)) else c))

/-- The extension has an associated type: it is a key of the case-sensitive
table, or its lower-case form is a key of the lower-case table. -/
def InTable (T : MimeTables) (ext : String) : Prop :=
  T.mimeTypes.lookup ext ≠ none ∨ T.mimeTypesLower.lookup (lowerExt T ext) ≠ none

/-! ## Constants of `handler.go` -/

/-- Path for temporary uploaded images. -/
def tempImagePath : String := "image/temp/"

/-- Path for temporary uploaded images (while creating room). -/
def createTempImagePath : String := "create"

def bucketName : String := "yourbucketname.appspot.com"

/-- Form key of uploaded image. -/
def uploadImageKey : String := "image"

/-- Go `http.StatusOK`. -/
def StatusOK : Nat := 200

/-- Go `http.StatusBadRequest`. -/
def StatusBadRequest : Nat := 400

/-- Go `http.StatusInternalServerError`. -/
def StatusInternalServerError : Nat := 500

/-! ## Data -/

abbrev Bytes := List UInt8

/-- Go `appengine.BlobKey`, a string type. -/
abbrev BlobKey := String

/-- Information about a served image. -/
structure ImageInfo where
  Key : BlobKey
  Url : String
  deriving DecidableEq, Repr

/-- Go `url.URL`. `Path` and `Fragment` are held in the escaped form in which
`String` prints them; `User` is the printed user information, if any. -/
structure URL where
  Scheme : String := ""
  Opaque : String := ""
  User : Option String := none
  Host : String := ""
  Path : String := ""
  RawQuery : String := ""
  Fragment : String := ""
  deriving DecidableEq, Repr

/-- Go `(*url.URL).String`. -/
def URL.String (u : URL) : String :=
  let buf := if u.Scheme != "" then u.Scheme ++ ":" else ""
  let buf :=
    if u.Opaque != "" then buf ++ u.Opaque
    else
      let buf :=
        if u.Scheme != "" || u.Host != "" || u.User.isSome then
          let buf := buf ++ "//"
          let buf := match u.User with
            | some ui => buf ++ ui ++ "@"
            | none => buf
          if u.Host != "" then buf ++ u.Host else buf
        else buf
      let buf :=
        if u.Path != "" && u.Path.data.head? != some '/' && u.Host != "" then buf ++ "/"
        else buf
      buf ++ u.Path
  let buf := if u.RawQuery != "" then buf ++ "?" ++ u.RawQuery else buf
  if u.Fragment != "" then buf ++ "#" ++ u.Fragment else buf

/-- Go `(*url.URL).IsAbs`. -/
def URL.IsAbs (u : URL) : Bool := u.Scheme != ""

/-- Go `image.ServingURLOptions`. -/
structure ServingURLOptions where
  Secure : Bool := false
  Size : Nat := 0
  Crop : Bool := false
  deriving DecidableEq, Repr

/-- Go `storage.Writer`, as far as the handler touches it: the object it was
opened for and the `ContentType` field the handler assigns. -/
structure Writer where
  bucket : String
  name : String
  ContentType : String := ""
  deriving DecidableEq, Repr

/-- Go `storage.NewWriter(ctx, bucket, name)`. -/
def NewWriter (bucket name : String) : Writer :=
  { bucket := bucket, name := name }

/-- Go `storage.Object`: the metadata `storage.StatObject` reports. -/
structure Object where
  Bucket : String
  Name : String
  ContentType : String
  Size : Nat
  deriving DecidableEq, Repr

/-- Go `multipart.File` of the upload: what `ioutil.ReadAll` obtains from the
stream, all its bytes or the read error. -/
structure File where
  content : Except String Bytes

/-- Go `multipart.FileHeader`: the client-supplied file name and the outcome of
`Open`. -/
structure FileHeader where
  Filename : String
  file : Except String File

/-- Go `http.Request`, as far as `FormFile` reads it: the outcome of
`ParseMultipartForm` and, on success, the file headers of each form key. -/
structure Request where
  MultipartForm : Except String (List (String × List FileHeader))

/-- Go `http.ErrMissingFile`. -/
def ErrMissingFile : String := "http: no such file"

/-- Go `(*http.Request).FormFile`: the first file for the form key. -/
def Request.FormFile (r : Request) (key : String) : Except String (File × FileHeader) :=
  match r.MultipartForm with
  | .error err => .error err
  | .ok form =>
    match form.lookup key with
    | some (fh :: _) =>
      match fh.file with
      | .ok f => .ok (f, fh)
      | .error err => .error err
    | _ => .error ErrMissingFile

/-- Go `http.ResponseWriter`: the status line sent (if any) and the bytes
handed to `Write` so far, in order. `fault` is the error each `Write` on this
connection returns, `none` for a connection that accepts writes; how many of
the bytes of a failed `Write` reached the client is not modelled. -/
structure ResponseWriter where
  status : Option Nat := none
  body : String := ""
  fault : Option String := none
  deriving DecidableEq, Repr

/-- Go `WriteHeader`: sends the status line unless one was sent already. -/
def ResponseWriter.WriteHeader (w : ResponseWriter) (code : Nat) : ResponseWriter :=
  match w.status with
  | some _ => w
  | none => { w with status := some code }

/-- Go `Write`: sends an implicit `200` status line first if none was sent. -/
def ResponseWriter.Write (w : ResponseWriter) (buf : String) :
    Except String Nat × ResponseWriter :=
  let w := w.WriteHeader StatusOK
  let w := { w with body := w.body ++ buf }
  match w.fault with
  | some err => (.error err, w)
  | none => (.ok buf.utf8ByteSize, w)

/-- Go `http.Error`: `w.WriteHeader(code)` then `fmt.Fprintln(w, error)`, whose
result is ignored. (The two header fields it sets are not modelled.) -/
def ResponseWriter.Error (w : ResponseWriter) (error : String) (code : Nat) : ResponseWriter :=
  ((w.WriteHeader code).Write (error ++ "\n")).2

/-- Go `json.Marshal(&info)` for `ImageInfo`: an object with the two exported
fields in declaration order. `quote` is the JSON string encoder of
`encoding/json`; marshalling a struct of two strings returns no error. -/
def jsonMarshal (quote : String → String) (info : ImageInfo) : Except String String :=
  .ok ("\x7b\"Key\":" ++ quote info.Key ++ ",\"Url\":" ++ quote info.Url ++ "\x7d")

/-! ## Collaborators and the call log -/

/-- The hosted services the handler calls, as operations on a service state
`σ`: `wc.Write`, `wc.Close`, `storage.StatObject`, `blobstore.BlobKeyForFile`
and `image.ServingURL`. -/
structure Services (σ : Type) where
  write : Writer → Bytes → σ → Except String Nat × σ
  close : Writer → σ → Except String Unit × σ
  statObject : String → String → σ → Except String Object × σ
  blobKeyForFile : String → σ → Except String BlobKey × σ
  servingURL : BlobKey → ServingURLOptions → σ → Except String URL × σ

/-- The runtime around the handler: the `mime` tables, `appengine.VersionID(c)`
and the JSON string encoder. -/
structure Env where
  mime : MimeTables
  versionID : String
  jsonQuote : String → String

/-- Whether a result is a success. -/
def isOk {α : Type} : Except String α → Bool
  | .ok _ => true
  | .error _ => false

inductive Level where
  | info
  | error
  deriving DecidableEq, Repr

/-- One call made by the handler. The collaborator calls carry what the
collaborator returned. `deleteObject` (`storage.DeleteObject`) belongs to the
object store client; the handler has no call site for it. -/
inductive Call where
  | formFile (key : String)
  | readAll
  | fileClose
  | log (lvl : Level) (msg : String)
  | write (wc : Writer) (data : Bytes) (res : Except String Nat)
  | close (wc : Writer) (res : Except String Unit)
  | statObject (bucket name : String) (res : Except String Object)
  | deleteObject (bucket name : String) (res : Except String Unit)
  | blobKeyForFile (name : String) (res : Except String BlobKey)
  | servingURL (key : BlobKey) (opts : ServingURLOptions) (res : Except String URL)
  | httpError (msg : String) (code : Nat)
  | respWrite (buf : String)

/-- The state a handler run threads through: the state of the services, the
response writer `w`, and the log of calls made so far. -/
structure World (σ : Type) where
  services : σ
  w : ResponseWriter
  calls : List Call

variable {σ : Type}

def World.emit (x : World σ) (c : Call) : World σ :=
  { x with calls := x.calls ++ [c] }

/-- `r.FormFile(key)`. -/
def World.formFile (x : World σ) (r : Request) (key : String) :
    Except String (File × FileHeader) × World σ :=
  (r.FormFile key, x.emit (.formFile key))

/-- `ioutil.ReadAll(file)`. -/
def World.readAll (x : World σ) (file : File) : Except String Bytes × World σ :=
  (file.content, x.emit .readAll)

/-- `file.Close()`, run by `defer` when the handler returns. -/
def World.fileClose (x : World σ) : World σ :=
  x.emit .fileClose

/-- `c.Infof(...)`, with the formatted message. -/
def World.Infof (x : World σ) (msg : String) : World σ :=
  x.emit (.log .info msg)

/-- `c.Errorf(...)`, with the formatted message. -/
def World.Errorf (x : World σ) (msg : String) : World σ :=
  x.emit (.log .error msg)

/-- `http.Error(w, error, code)`. -/
def World.httpError (x : World σ) (error : String) (code : Nat) : World σ :=
  { x with w := x.w.Error error code, calls := x.calls ++ [.httpError error code] }

/-- `w.Write(buf)`. -/
def World.respWrite (x : World σ) (buf : String) : Except String Nat × World σ :=
  let res := x.w.Write buf
  (res.1, { x with w := res.2, calls := x.calls ++ [.respWrite buf] })

/-- `wc.Write(data)`. -/
def World.storeWrite (S : Services σ) (x : World σ) (wc : Writer) (data : Bytes) :
    Except String Nat × World σ :=
  let res := S.write wc data x.services
  (res.1, { x with services := res.2, calls := x.calls ++ [.write wc data res.1] })

/-- `wc.Close()`. -/
def World.storeClose (S : Services σ) (x : World σ) (wc : Writer) :
    Except String Unit × World σ :=
  let res := S.close wc x.services
  (res.1, { x with services := res.2, calls := x.calls ++ [.close wc res.1] })

/-- `storage.StatObject(ctx, bucket, name)`. -/
def World.StatObject (S : Services σ) (x : World σ) (bucket name : String) :
    Except String Object × World σ :=
  let res := S.statObject bucket name x.services
  (res.1, { x with services := res.2, calls := x.calls ++ [.statObject bucket name res.1] })

/-- `blobstore.BlobKeyForFile(c, name)`. -/
def World.BlobKeyForFile (S : Services σ) (x : World σ) (name : String) :
    Except String BlobKey × World σ :=
  let res := S.blobKeyForFile name x.services
  (res.1, { x with services := res.2, calls := x.calls ++ [.blobKeyForFile name res.1] })

/-- `image.ServingURL(c, key, &opts)`. -/
def World.ServingURL (S : Services σ) (x : World σ) (key : BlobKey) (opts : ServingURLOptions) :
    Except String URL × World σ :=
  let res := S.servingURL key opts x.services
  (res.1, { x with services := res.2, calls := x.calls ++ [.servingURL key opts res.1] })

/-! ## The handlers -/

/-- `getImageUrl` of `handler.go`. -/
def getImageUrl (S : Services σ) (x : World σ) (key : BlobKey) : Except String URL × World σ :=
  -- get image url only if it was specified
  let option : ServingURLOptions := { Secure := true } -- serve on https
  x.ServingURL S key option

/-- `handleUploadImage` of `handler.go`. The construction of the storage
context (`gappengine.NewContext`, the OAuth2 HTTP client, `cloud.NewContext`)
makes no call that can fail and is not represented. -/
def handleUploadImage (S : Services σ) (E : Env) (r : Request) (x0 : World σ) : World σ :=
  match x0.formFile r uploadImageKey with
  | (.error err, x) =>
    let x := x.Infof ("Failed to get uploaded image: " ++ err)
    x.httpError "Failed to get uploaded image" StatusBadRequest
  | (.ok (file, fileHeader), x) =>
    World.fileClose <|
    match x.readAll file with
    | (.error err, x) =>
      let x := x.Errorf ("Failed to read uploaded image: " ++ err)
      x.httpError "Failed to get uploaded image" StatusBadRequest
    | (.ok data, x) =>
      let ext := Ext fileHeader.Filename
      let mimeType := TypeByExtension E.mime ext
      let x := x.Infof ("Demo GCS Application running from Version: " ++ E.versionID ++ "\n")
      let filePath := Join [tempImagePath, createTempImagePath, fileHeader.Filename]
      let x := x.Infof ("file: " ++ fileHeader.Filename ++ ", size: " ++ toString data.length
        ++ ", MIME: " ++ mimeType ++ ", path: " ++ filePath)
      let wc := { NewWriter bucketName filePath with ContentType := mimeType }
      match x.storeWrite S wc data with
      | (.error err, x) =>
        let x := x.Errorf ("Failed to upload image: " ++ err)
        x.httpError "Failed to upload image" StatusInternalServerError
      | (.ok _, x) =>
        match x.storeClose S wc with
        | (.error err, x) =>
          let x := x.Errorf ("Failed to close uploaded image: " ++ err)
          x.httpError "Failed to upload image" StatusInternalServerError
        | (.ok _, x) =>
          match x.StatObject S bucketName filePath with
          | (.error err, x) =>
            let x := x.Errorf ("Failed to stat object: " ++ err)
            x.httpError err StatusInternalServerError
          | (.ok obj, x) =>
            -- get blob key for GCS file
            let objName := Join ["/gs", bucketName, obj.Name]
            let x := x.Infof ("Getting blob key from path: " ++ objName)
            match x.BlobKeyForFile S objName with
            | (.error err, x) =>
              let x := x.Errorf ("Failed to get image blob key: " ++ err)
              x.httpError err StatusInternalServerError
            | (.ok imgKey, x) =>
              match getImageUrl S x imgKey with
              | (.error err, x) =>
                let x := x.Errorf ("Failed to get room image url: " ++ err)
                x.httpError err StatusInternalServerError
              | (.ok url, x) =>
                let info : ImageInfo := { Key := imgKey, Url := url.String }
                match jsonMarshal E.jsonQuote info with
                | .error err =>
                  let x := x.Errorf err
                  x.httpError err StatusInternalServerError
                | .ok outBuf =>
                  match x.respWrite outBuf with
                  | (.error err, x) =>
                    let x := x.Errorf err
                    x.httpError err StatusInternalServerError
                  | (.ok _, x) => x

/-! ## Reading a run -/

/-- The steps of the pipeline that call a collaborator. -/
inductive Step where
  | write
  | close
  | stat
  | delete
  | blobKey
  | servingURL
  deriving DecidableEq, Repr

/-- The collaborator calls of a log, in order, each with whether it succeeded;
the other entries of the log are dropped. -/
def steps : List Call → List (Step × Bool)
  | [] => []
  | .write _ _ res :: cs => (.write, isOk res) :: steps cs
  | .close _ res :: cs => (.close, isOk res) :: steps cs
  | .statObject _ _ res :: cs => (.stat, isOk res) :: steps cs
  | .deleteObject _ _ res :: cs => (.delete, isOk res) :: steps cs
  | .blobKeyForFile _ res :: cs => (.blobKey, isOk res) :: steps cs
  | .servingURL _ _ res :: cs => (.servingURL, isOk res) :: steps cs
  | _ :: cs => steps cs

/-- The order in which the pipeline calls its collaborators. -/
def pipelineOrder : List Step :=
  [.write, .close, .stat, .blobKey, .servingURL]

/-- The `http.Error` calls of a log, in order. -/
def httpErrors : List Call → List (String × Nat)
  | [] => []
  | .httpError msg code :: cs => (msg, code) :: httpErrors cs
  | _ :: cs => httpErrors cs

/-- The buffers handed to `w.Write` by the handler itself, in order. -/
def respWrites : List Call → List String
  | [] => []
  | .respWrite buf :: cs => buf :: respWrites cs
  | _ :: cs => respWrites cs

/-- The writers on which `Write` was called, with the data, in order. -/
def storeWrites : List Call → List (Writer × Bytes)
  | [] => []
  | .write wc data _ :: cs => (wc, data) :: storeWrites cs
  | _ :: cs => storeWrites cs

/-- What `storage.StatObject` returned, call by call. -/
def statResults : List Call → List (Except String Object)
  | [] => []
  | .statObject _ _ res :: cs => res :: statResults cs
  | _ :: cs => statResults cs

/-- The names passed to the blob resolver and what it returned, in order. -/
def blobKeyCalls : List Call → List (String × Except String BlobKey)
  | [] => []
  | .blobKeyForFile name res :: cs => (name, res) :: blobKeyCalls cs
  | _ :: cs => blobKeyCalls cs

/-- The requests made to the URL resolver and what it returned, in order. -/
def servingURLCalls : List Call → List (BlobKey × ServingURLOptions × Except String URL)
  | [] => []
  | .servingURL key opts res :: cs => (key, opts, res) :: servingURLCalls cs
  | _ :: cs => servingURLCalls cs

/-- A fresh run: the given service state, a response writer on which nothing
was sent, an empty log. -/
def World.init (st : σ) (w : ResponseWriter) : World σ :=
  { services := st, w := w, calls := [] }

/-- The response writer a handler receives: nothing sent yet; `fault` as given. -/
def freshWriter (fault : Option String) : ResponseWriter :=
  { status := none, body := "", fault := fault }

/-- A request whose form holds one file under the key `key`, readable, with the
given client file name and content. -/
def uploadRequest (key filename : String) (data : Bytes) : Request :=
  { MultipartForm := .ok [(key, [{ Filename := filename, file := .ok { content := .ok data } }])] }

/-- A request whose multipart form was parsed and holds no file at all. -/
def emptyFormRequest : Request :=
  { MultipartForm := .ok [] }

/-! ## A path-keyed in-memory object store -/

/-- What the store keeps for one object. -/
structure StoredObject where
  ContentType : String
  data : Bytes
  deriving DecidableEq, Repr

/-- An object store keyed by `(bucket, name)`, with the upload in progress. -/
structure MemStore where
  objects : List ((String × String) × StoredObject) := []
  pending : Option (Writer × Bytes) := none
  deriving DecidableEq, Repr

/-- Store `o` under `key`, replacing what the key held. -/
def MemStore.put (key : String × String) (o : StoredObject)
    (objects : List ((String × String) × StoredObject)) :
    List ((String × String) × StoredObject) :=
  (key, o) :: objects.filter (fun p => p.1 != key)

/-- The in-memory services: `Write` buffers the bytes of the writer, `Close`
commits them under the writer's `(bucket, name)`, `StatObject` reports the
object stored under the name; the blob key of a file is its name behind a
fixed tag and the serving URL is built from the key, `https` exactly when the
option `Secure` is set. -/
def memServices : Services MemStore where
  write wc data st :=
    let sofar := match st.pending with
      | some (wc1, d) => if wc1 = wc then d else []
      | none => []
    (.ok data.length, { st with pending := some (wc, sofar ++ data) })
  close wc st :=
    let data := match st.pending with
      | some (wc1, d) => if wc1 = wc then d else []
      | none => []
    (.ok (), { objects := MemStore.put (wc.bucket, wc.name) ⟨wc.ContentType, data⟩ st.objects
               pending := none })
  statObject bucket name st :=
    match st.objects.lookup (bucket, name) with
    | some o => (.ok { Bucket := bucket, Name := name, ContentType := o.ContentType,
                       Size := o.data.length }, st)
    | none => (.error "storage: object doesn\x27t exist", st)
  blobKeyForFile name st := (.ok ("encoded_gs_file:" ++ name), st)
  servingURL key opts st :=
    (.ok { Scheme := if opts.Secure then "https" else "http"
           Host := "lh3.googleusercontent.com"
           Path := "/" ++ key }, st)

/-- A runtime with the built-in `mime` table; the JSON string encoder wraps its
argument in double quotes (it agrees with `encoding/json` on strings that need
no escaping). -/
def plainEnv : Env :=
  { mime := builtinTables
    versionID := "1"
    jsonQuote := fun s => "\"" ++ s ++ "\"" }

/-! ## The ways a run can end -/

/-- The path at which the handler stores the upload with client file name
`filename` (`filePath` in `handleUploadImage`). -/
def uploadPath (filename : String) : String :=
  Join [tempImagePath, createTempImagePath, filename]

/-- The writer the handler opens for an upload (`wc` in `handleUploadImage`,
after the assignment of `ContentType`). -/
def uploadWriter (E : Env) (filename : String) : Writer :=
  { bucket := bucketName
    name := uploadPath filename
    ContentType := TypeByExtension E.mime (Ext filename) }

/-- The name the handler passes to the blob resolver for the object `obj` that
`StatObject` reported (`objName` in `handleUploadImage`). -/
def blobPath (obj : Object) : String :=
  Join ["/gs", bucketName, obj.Name]

/-- The calls of a run up to the point where the writer is opened. -/
def preamble (E : Env) (filename : String) (data : Bytes) : List Call :=
  [.formFile uploadImageKey, .readAll,
   .log .info ("Demo GCS Application running from Version: " ++ E.versionID ++ "\n"),
   .log .info ("file: " ++ filename ++ ", size: " ++ toString data.length
     ++ ", MIME: " ++ TypeByExtension E.mime (Ext filename) ++ ", path: " ++ uploadPath filename)]

/-- The response body of a successful upload with blob key `key` and serving
URL `url`. -/
def successBody (E : Env) (key : BlobKey) (url : URL) : String :=
  "\x7b\"Key\":" ++ E.jsonQuote key ++ ",\"Url\":" ++ E.jsonQuote url.String ++ "\x7d"

/-- The return points of `handleUploadImage`, one constructor each, with the
condition under which the run from service state `st` and response writer `w`
reaches it and the world it returns. -/
inductive Outcome (S : Services σ) (E : Env) (r : Request) (st : σ) (w : ResponseWriter) :
    World σ → Prop
  | noFile (err : String) (hF : r.FormFile uploadImageKey = .error err) :
    Outcome S E r st w
      { services := st
        w := w.Error "Failed to get uploaded image" StatusBadRequest
        calls := [.formFile uploadImageKey,
          .log .info ("Failed to get uploaded image: " ++ err),
          .httpError "Failed to get uploaded image" StatusBadRequest] }
  | readFails (file : File) (fh : FileHeader) (err : String)
    (hF : r.FormFile uploadImageKey = .ok (file, fh)) (hR : file.content = .error err) :
    Outcome S E r st w
      { services := st
        w := w.Error "Failed to get uploaded image" StatusBadRequest
        calls := [.formFile uploadImageKey, .readAll,
          .log .error ("Failed to read uploaded image: " ++ err),
          .httpError "Failed to get uploaded image" StatusBadRequest, .fileClose] }
  | writeFails (file : File) (fh : FileHeader) (data : Bytes) (err : String) (st1 : σ)
    (hF : r.FormFile uploadImageKey = .ok (file, fh)) (hR : file.content = .ok data)
    (hW : S.write (uploadWriter E fh.Filename) data st = (.error err, st1)) :
    Outcome S E r st w
      { services := st1
        w := w.Error "Failed to upload image" StatusInternalServerError
        calls := preamble E fh.Filename data ++
          [.write (uploadWriter E fh.Filename) data (.error err),
           .log .error ("Failed to upload image: " ++ err),
           .httpError "Failed to upload image" StatusInternalServerError, .fileClose] }
  | closeFails (file : File) (fh : FileHeader) (data : Bytes) (n : Nat) (err : String)
    (st1 st2 : σ)
    (hF : r.FormFile uploadImageKey = .ok (file, fh)) (hR : file.content = .ok data)
    (hW : S.write (uploadWriter E fh.Filename) data st = (.ok n, st1))
    (hC : S.close (uploadWriter E fh.Filename) st1 = (.error err, st2)) :
    Outcome S E r st w
      { services := st2
        w := w.Error "Failed to upload image" StatusInternalServerError
        calls := preamble E fh.Filename data ++
          [.write (uploadWriter E fh.Filename) data (.ok n),
           .close (uploadWriter E fh.Filename) (.error err),
           .log .error ("Failed to close uploaded image: " ++ err),
           .httpError "Failed to upload image" StatusInternalServerError, .fileClose] }
  | statFails (file : File) (fh : FileHeader) (data : Bytes) (n : Nat) (err : String)
    (st1 st2 st3 : σ)
    (hF : r.FormFile uploadImageKey = .ok (file, fh)) (hR : file.content = .ok data)
    (hW : S.write (uploadWriter E fh.Filename) data st = (.ok n, st1))
    (hC : S.close (uploadWriter E fh.Filename) st1 = (.ok (), st2))
    (hS : S.statObject bucketName (uploadPath fh.Filename) st2 = (.error err, st3)) :
    Outcome S E r st w
      { services := st3
        w := w.Error err StatusInternalServerError
        calls := preamble E fh.Filename data ++
          [.write (uploadWriter E fh.Filename) data (.ok n),
           .close (uploadWriter E fh.Filename) (.ok ()),
           .statObject bucketName (uploadPath fh.Filename) (.error err),
           .log .error ("Failed to stat object: " ++ err),
           .httpError err StatusInternalServerError, .fileClose] }
  | blobKeyFails (file : File) (fh : FileHeader) (data : Bytes) (n : Nat) (obj : Object)
    (err : String) (st1 st2 st3 st4 : σ)
    (hF : r.FormFile uploadImageKey = .ok (file, fh)) (hR : file.content = .ok data)
    (hW : S.write (uploadWriter E fh.Filename) data st = (.ok n, st1))
    (hC : S.close (uploadWriter E fh.Filename) st1 = (.ok (), st2))
    (hS : S.statObject bucketName (uploadPath fh.Filename) st2 = (.ok obj, st3))
    (hB : S.blobKeyForFile (blobPath obj) st3 = (.error err, st4)) :
    Outcome S E r st w
      { services := st4
        w := w.Error err StatusInternalServerError
        calls := preamble E fh.Filename data ++
          [.write (uploadWriter E fh.Filename) data (.ok n),
           .close (uploadWriter E fh.Filename) (.ok ()),
           .statObject bucketName (uploadPath fh.Filename) (.ok obj),
           .log .info ("Getting blob key from path: " ++ blobPath obj),
           .blobKeyForFile (blobPath obj) (.error err),
           .log .error ("Failed to get image blob key: " ++ err),
           .httpError err StatusInternalServerError, .fileClose] }
  | urlFails (file : File) (fh : FileHeader) (data : Bytes) (n : Nat) (obj : Object)
    (key : BlobKey) (err : String) (st1 st2 st3 st4 st5 : σ)
    (hF : r.FormFile uploadImageKey = .ok (file, fh)) (hR : file.content = .ok data)
    (hW : S.write (uploadWriter E fh.Filename) data st = (.ok n, st1))
    (hC : S.close (uploadWriter E fh.Filename) st1 = (.ok (), st2))
    (hS : S.statObject bucketName (uploadPath fh.Filename) st2 = (.ok obj, st3))
    (hB : S.blobKeyForFile (blobPath obj) st3 = (.ok key, st4))
    (hU : S.servingURL key { Secure := true } st4 = (.error err, st5)) :
    Outcome S E r st w
      { services := st5
        w := w.Error err StatusInternalServerError
        calls := preamble E fh.Filename data ++
          [.write (uploadWriter E fh.Filename) data (.ok n),
           .close (uploadWriter E fh.Filename) (.ok ()),
           .statObject bucketName (uploadPath fh.Filename) (.ok obj),
           .log .info ("Getting blob key from path: " ++ blobPath obj),
           .blobKeyForFile (blobPath obj) (.ok key),
           .servingURL key { Secure := true } (.error err),
           .log .error ("Failed to get room image url: " ++ err),
           .httpError err StatusInternalServerError, .fileClose] }
  | respWriteFails (file : File) (fh : FileHeader) (data : Bytes) (n : Nat) (obj : Object)
    (key : BlobKey) (url : URL) (err : String) (st1 st2 st3 st4 st5 : σ)
    (hF : r.FormFile uploadImageKey = .ok (file, fh)) (hR : file.content = .ok data)
    (hW : S.write (uploadWriter E fh.Filename) data st = (.ok n, st1))
    (hC : S.close (uploadWriter E fh.Filename) st1 = (.ok (), st2))
    (hS : S.statObject bucketName (uploadPath fh.Filename) st2 = (.ok obj, st3))
    (hB : S.blobKeyForFile (blobPath obj) st3 = (.ok key, st4))
    (hU : S.servingURL key { Secure := true } st4 = (.ok url, st5))
    (hX : (w.Write (successBody E key url)).1 = .error err) :
    Outcome S E r st w
      { services := st5
        w := (w.Write (successBody E key url)).2.Error err StatusInternalServerError
        calls := preamble E fh.Filename data ++
          [.write (uploadWriter E fh.Filename) data (.ok n),
           .close (uploadWriter E fh.Filename) (.ok ()),
           .statObject bucketName (uploadPath fh.Filename) (.ok obj),
           .log .info ("Getting blob key from path: " ++ blobPath obj),
           .blobKeyForFile (blobPath obj) (.ok key),
           .servingURL key { Secure := true } (.ok url),
           .respWrite (successBody E key url),
           .log .error err,
           .httpError err StatusInternalServerError, .fileClose] }
  | done (file : File) (fh : FileHeader) (data : Bytes) (n : Nat) (obj : Object)
    (key : BlobKey) (url : URL) (m : Nat) (st1 st2 st3 st4 st5 : σ)
    (hF : r.FormFile uploadImageKey = .ok (file, fh)) (hR : file.content = .ok data)
    (hW : S.write (uploadWriter E fh.Filename) data st = (.ok n, st1))
    (hC : S.close (uploadWriter E fh.Filename) st1 = (.ok (), st2))
    (hS : S.statObject bucketName (uploadPath fh.Filename) st2 = (.ok obj, st3))
    (hB : S.blobKeyForFile (blobPath obj) st3 = (.ok key, st4))
    (hU : S.servingURL key { Secure := true } st4 = (.ok url, st5))
    (hX : (w.Write (successBody E key url)).1 = .ok m) :
    Outcome S E r st w
      { services := st5
        w := (w.Write (successBody E key url)).2
        calls := preamble E fh.Filename data ++
          [.write (uploadWriter E fh.Filename) data (.ok n),
           .close (uploadWriter E fh.Filename) (.ok ()),
           .statObject bucketName (uploadPath fh.Filename) (.ok obj),
           .log .info ("Getting blob key from path: " ++ blobPath obj),
           .blobKeyForFile (blobPath obj) (.ok key),
           .servingURL key { Secure := true } (.ok url),
           .respWrite (successBody E key url), .fileClose] }

/-- An object store that refuses every write; its other operations are those of
the in-memory services. -/
def readOnlyServices : Services MemStore :=
  { memServices with write := fun _ _ st => (.error "storage: forbidden", st) }

/-- The upload of three bytes under the file name `cat.jpg`. -/
def catRequest : Request :=
  uploadRequest "image" "cat.jpg" [1, 2, 3]

/-- The run of the handler on `catRequest` with the in-memory services, an
empty store, and a response writer with the given fault. -/
def catRun (fault : Option String) : World MemStore :=
  handleUploadImage memServices plainEnv catRequest (World.init {} (freshWriter fault))

/-- The run of the handler on an upload with the given client file name, with
the in-memory services and an empty store. -/
def namedRun (filename : String) : World MemStore :=
  handleUploadImage memServices plainEnv (uploadRequest "image" filename [1, 2, 3])
    (World.init {} (freshWriter none))

/-- The first of two uploads with the same client file name: payload `d1`, into
the in-memory store holding `objects` with no upload in progress. -/
def firstUpload (E : Env) (filename : String) (d1 : Bytes)
    (objects : List ((String × String) × StoredObject)) : World MemStore :=
  handleUploadImage memServices E (uploadRequest uploadImageKey filename d1)
    (World.init { objects := objects, pending := none } (freshWriter none))

/-- The second upload: same file name, payload `d2`, into the store the first
upload left. -/
def secondUpload (E : Env) (filename : String) (d1 d2 : Bytes)
    (objects : List ((String × String) × StoredObject)) : World MemStore :=
  handleUploadImage memServices E (uploadRequest uploadImageKey filename d2)
    (World.init (firstUpload E filename d1 objects).services (freshWriter none))

/-- The URL resolver keeps to the option `Secure`: a URL it returns for a
request with `Secure = true` has scheme `https` and names a host. -/
def HonoursSecure (S : Services σ) : Prop :=
  ∀ (key : BlobKey) (st st1 : σ) (url : URL),
    S.servingURL key { Secure := true } st = (.ok url, st1) →
      url.Scheme = "https" ∧ url.Opaque = "" ∧ url.Host ≠ ""

/-- The run of the handler on an upload named `a.unknownext`, an extension
outside the table, with the in-memory services, an empty store, and a response
writer with the given fault. -/
def unknownExtRun (fault : Option String) : World MemStore :=
  handleUploadImage memServices plainEnv (uploadRequest "image" "a.unknownext" [7])
    (World.init {} (freshWriter fault))

/-- Services whose URL resolver answers every request, `Secure` or not, with a
plain `http` URL on the local host (as a local development server would); the
other operations are those of the in-memory services. -/
def plainHttpServices : Services MemStore :=
  { memServices with
    servingURL := fun key _ st =>
      (.ok { Scheme := "http", Host := "localhost:8080", Path := "/_ah/img/" ++ key }, st) }

/-- The run of the handler on `catRequest` with `plainHttpServices`, an empty
store, and a response writer that accepts writes. -/
def plainHttpRun : World MemStore :=
  handleUploadImage plainHttpServices plainEnv catRequest (World.init {} (freshWriter none))

/-! ## Lemmas on `path.Clean` and `path.Join` -/

theorem dropWhile_length_le (p : Char → Bool) (l : List Char) :
    (l.dropWhile p).length ≤ l.length := by
  induction l with
  | nil => simp
  | cons a l ih =>
    simp only [List.dropWhile_cons]
    split
    · simp only [List.length_cons]; omega
    · simp

/-- Any two iteration bounds that are at least the length of the input give
the same result: `cleanLoop` never stops for lack of iterations. -/
theorem cleanLoop_fuel (rooted : Bool) :
    ∀ (f1 f2 : Nat) (rest out : List Char) (dotdot : Nat),
      rest.length ≤ f1 → rest.length ≤ f2 →
      cleanLoop rooted f1 rest out dotdot = cleanLoop rooted f2 rest out dotdot := by
  intro f1
  induction f1 with
  | zero =>
    intro f2 rest out dotdot h1 _
    have : rest = [] := List.length_eq_zero.mp (Nat.le_zero.mp h1)
    subst this
    cases f2 <;> simp [cleanLoop]
  | succ n ih =>
    intro f2 rest out dotdot h1 h2
    cases f2 with
    | zero =>
      have : rest = [] := List.length_eq_zero.mp (Nat.le_zero.mp h2)
      subst this
      simp [cleanLoop]
    | succ m =>
      cases rest with
      | nil => simp [cleanLoop]
      | cons c t =>
        simp only [List.length_cons, Nat.add_le_add_iff_right] at h1 h2
        have ht1 : t.tail.length ≤ n := by simp only [List.length_tail]; omega
        have ht2 : t.tail.length ≤ m := by simp only [List.length_tail]; omega
        simp only [cleanLoop]
        split
        · exact ih m t out dotdot h1 h2
        · rename_i hc
          split
          · exact ih m t out dotdot h1 h2
          · split
            · split
              · exact ih m _ _ _ ht1 ht2
              · split
                · exact ih m _ _ _ ht1 ht2
                · exact ih m _ _ _ ht1 ht2
            · have hd : (c :: t).dropWhile (· != '/') = t.dropWhile (· != '/') := by
                have : (c != '/') = true := by simpa [bne] using hc
                simp [List.dropWhile_cons, this]
              rw [hd]
              exact ih m _ _ _ (le_trans (dropWhile_length_le _ t) h1)
                (le_trans (dropWhile_length_le _ t) h2)


theorem takeWhile_elem (e t : List Char) (he : '/' ∉ e)
    (ht : t = [] ∨ ∃ t1, t = '/' :: t1) :
    (e ++ t).takeWhile (· != '/') = e ∧ (e ++ t).dropWhile (· != '/') = t := by
  induction e with
  | nil =>
    rcases ht with rfl | ⟨t1, rfl⟩ <;> simp
  | cons a e ih =>
    have ha : (a != '/') = true := by
      simp only [List.mem_cons, not_or] at he
      simpa [bne] using fun h => he.1 h.symm
    have he1 : '/' ∉ e := fun h => he (List.mem_cons_of_mem _ h)
    simp [List.takeWhile_cons, List.dropWhile_cons, ha, ih he1]

theorem cleanLoop_nil (rooted : Bool) (fuel : Nat) (out : List Char) (dotdot : Nat) :
    cleanLoop rooted fuel [] out dotdot = out := by
  cases fuel <;> simp [cleanLoop]

theorem cleanLoop_slash (rooted : Bool) (fuel : Nat) (t out : List Char) (dotdot : Nat)
    (h : t.length + 1 ≤ fuel) :
    cleanLoop rooted fuel ('/' :: t) out dotdot = cleanLoop rooted t.length t out dotdot := by
  rw [cleanLoop_fuel rooted fuel (t.length + 1) ('/' :: t) out dotdot (by simpa using h)
    (by simp)]
  simp [cleanLoop]

theorem cleanLoop_elem (rooted : Bool) (fuel : Nat) (e t out : List Char) (dotdot : Nat)
    (he : IsElem e) (ht : t = [] ∨ ∃ t1, t = '/' :: t1) (h : (e ++ t).length ≤ fuel) :
    cleanLoop rooted fuel (e ++ t) out dotdot
      = cleanLoop rooted t.length t (sep rooted out ++ e) dotdot := by
  obtain ⟨hne, hs, hd, hdd⟩ := he
  have htd := takeWhile_elem e t hs ht
  rw [cleanLoop_fuel rooted fuel (e ++ t).length (e ++ t) out dotdot h (le_refl _)]
  cases e with
  | nil => exact absurd rfl hne
  | cons c e1 =>
    have hc : (c == '/') = false := by
      simp only [List.mem_cons, not_or] at hs
      simpa using fun h => hs.1 h.symm
    have hs1 : '/' ∉ e1 := fun h => hs (List.mem_cons_of_mem _ h)
    have hdot : (c == '.' && ((e1 ++ t).isEmpty || (e1 ++ t).head? == some '/')) = false := by
      cases e1 with
      | nil =>
        have : c ≠ '.' := fun h => hd (by rw [h])
        simp [this]
      | cons a e2 =>
        have : a ≠ '/' := by
          simp only [List.mem_cons, not_or] at hs1
          exact fun h => hs1.1 h.symm
        simp [this]
    have hdotdot : (c == '.' && (e1 ++ t).head? == some '.'
        && ((e1 ++ t).tail.isEmpty || (e1 ++ t).tail.head? == some '/')) = false := by
      cases e1 with
      | nil =>
        rcases ht with rfl | ⟨t1, rfl⟩ <;> simp
      | cons a e2 =>
        cases e2 with
        | nil =>
          have : ¬ (c = '.' ∧ a = '.') := fun h => hdd (by rw [h.1, h.2])
          rcases ht with rfl | ⟨t1, rfl⟩ <;> simp <;> tauto
        | cons b e3 =>
          have : b ≠ '/' := by
            simp only [List.mem_cons, not_or] at hs1
            exact fun h => hs1.2.1 h.symm
          simp [this]
    simp only [List.cons_append, List.length_cons, cleanLoop, hc, hdot, hdotdot]
    simp only [List.cons_append] at htd
    simp only [Bool.false_eq_true, if_false, htd.1, htd.2]
    exact cleanLoop_fuel rooted _ _ _ _ _ (by simp) (le_refl _)


theorem CleanName.isElem {f : String} (h : CleanName f) : IsElem f.data := by
  obtain ⟨h1, h2, h3, h4⟩ := h
  refine ⟨fun h => h1 (String.ext h), h2, fun h => h3 (String.ext h), fun h => h4 (String.ext h)⟩

theorem joinBuf_first (e : String) (es : List String) (he : e ≠ "") :
    joinBuf (e :: es) "" = joinBuf es e := by
  have h0 : ¬ ("".length > 0) := by decide
  have h1 : (e != "") = true := by simpa [bne] using he
  have h2 : ("" : String) ++ e = e := String.ext (by simp)
  simp only [joinBuf, h0, h1, decide_False, Bool.false_or, if_true, if_false, h2]

theorem joinBuf_next (e buf : String) (es : List String) (hb : buf ≠ "") :
    joinBuf (e :: es) buf = joinBuf es (buf ++ "/" ++ e) := by
  have h0 : buf.length > 0 := by
    rcases Nat.eq_zero_or_pos buf.length with h | h
    · exact absurd (String.ext (List.length_eq_zero.mp h)) hb
    · exact h
  simp only [joinBuf, h0, decide_True, Bool.true_or, if_true]

theorem append_ne_empty (a b : String) (hb : b ≠ "") : a ++ b ≠ "" := by
  intro h
  have h1 : (a ++ b).data = [] := by rw [h]
  rw [String.data_append] at h1
  exact hb (String.ext (List.append_eq_nil.mp h1).2)

theorem cleanLoop_slash_len (rooted : Bool) (t out : List Char) (dotdot : Nat) :
    cleanLoop rooted ('/' :: t).length ('/' :: t) out dotdot
      = cleanLoop rooted t.length t out dotdot :=
  cleanLoop_slash rooted _ t out dotdot (by simp)

theorem cleanLoop_elem_len (rooted : Bool) (e t out : List Char) (dotdot : Nat)
    (he : IsElem e) (ht : t = [] ∨ ∃ t1, t = '/' :: t1) :
    cleanLoop rooted (e ++ t).length (e ++ t) out dotdot
      = cleanLoop rooted t.length t (sep rooted out ++ e) dotdot :=
  cleanLoop_elem rooted _ e t out dotdot he ht (le_refl _)

theorem cleanLoop_upload (f : List Char) (he : IsElem f) (fuel : Nat)
    (hfuel : f.length + 19 ≤ fuel) :
    cleanLoop false fuel (['i', 'm', 'a', 'g', 'e'] ++ ('/' :: (['t', 'e', 'm', 'p'] ++
        ('/' :: '/' :: (['c', 'r', 'e', 'a', 't', 'e'] ++ ('/' :: (f ++ []))))))) [] 0
      = ['i', 'm', 'a', 'g', 'e', '/', 't', 'e', 'm', 'p', '/',
          'c', 'r', 'e', 'a', 't', 'e', '/'] ++ f := by
  rw [cleanLoop_elem false fuel _ _ _ _ (by decide) (Or.inr ⟨_, rfl⟩)
      (by simp only [List.length_append, List.length_cons, List.length_nil]; omega)]
  rw [cleanLoop_slash_len]
  rw [cleanLoop_elem_len false _ _ _ _ (by decide) (Or.inr ⟨_, rfl⟩)]
  rw [cleanLoop_slash_len]
  rw [cleanLoop_slash_len]
  rw [cleanLoop_elem_len false _ _ _ _ (by decide) (Or.inr ⟨_, rfl⟩)]
  rw [cleanLoop_slash_len]
  rw [cleanLoop_elem_len false _ _ _ _ he (Or.inl rfl)]
  rw [cleanLoop_nil]
  simp [sep]

theorem cleanChars_upload (f : List Char) (he : IsElem f) :
    cleanChars (['i', 'm', 'a', 'g', 'e', '/', 't', 'e', 'm', 'p', '/', '/',
        'c', 'r', 'e', 'a', 't', 'e', '/'] ++ f)
      = ['i', 'm', 'a', 'g', 'e', '/', 't', 'e', 'm', 'p', '/',
          'c', 'r', 'e', 'a', 't', 'e', '/'] ++ f := by
  have h := cleanLoop_upload f he (f.length + 19) (le_refl _)
  simp only [List.append_nil] at h
  simp only [cleanChars, List.cons_append, List.nil_append, List.length_cons] at h ⊢
  simp [h]

theorem join_upload_path (f : String) (hf : CleanName f) :
    Join [tempImagePath, createTempImagePath, f] = "image/temp/create/" ++ f := by
  have he := hf.isElem
  have hbuf : joinBuf [tempImagePath, createTempImagePath, f] ""
      = "image/temp/" ++ "/" ++ "create" ++ "/" ++ f := by
    rw [joinBuf_first _ _ (by decide), joinBuf_next _ _ _ (by decide),
      joinBuf_next _ _ _ (append_ne_empty _ _ (by decide))]
    rfl
  have h11 : tempImagePath.length = 11 := by decide
  have hsize : (([tempImagePath, createTempImagePath, f].map String.length).sum == 0) = false := by
    simp only [List.map_cons, List.sum_cons, h11]
    rw [beq_eq_false_iff_ne]
    omega
  unfold Join
  simp only [hsize, hbuf]
  apply String.ext
  have hd : ("image/temp/" ++ "/" ++ "create" ++ "/" ++ f).data
      = ['i', 'm', 'a', 'g', 'e', '/', 't', 'e', 'm', 'p', '/', '/',
        'c', 'r', 'e', 'a', 't', 'e', '/'] ++ f.data := by
    simp only [String.data_append]
    rfl
  simp only [Clean, hd, cleanChars_upload f.data he, String.data_append]
  rfl

theorem cleanLoop_blob (f : List Char) (he : IsElem f) (fuel : Nat)
    (hfuel : f.length + 49 ≤ fuel) :
    cleanLoop true fuel (['g', 's'] ++ ('/' :: (['y', 'o', 'u', 'r', 'b', 'u', 'c', 'k', 'e', 't', 'n', 'a', 'm', 'e', '.', 'a', 'p', 'p', 's', 'p', 'o', 't', '.', 'c', 'o', 'm']
        ++ ('/' :: (['i', 'm', 'a', 'g', 'e'] ++ ('/' :: (['t', 'e', 'm', 'p'] ++ ('/' :: (['c', 'r', 'e', 'a', 't', 'e']
        ++ ('/' :: (f ++ []))))))))))) ['/'] 1
      = ['/', 'g', 's', '/', 'y', 'o', 'u', 'r', 'b', 'u', 'c', 'k', 'e', 't', 'n', 'a', 'm', 'e', '.', 'a', 'p', 'p', 's', 'p', 'o', 't', '.', 'c', 'o', 'm', '/', 'i', 'm', 'a', 'g', 'e', '/', 't', 'e', 'm', 'p', '/', 'c', 'r', 'e', 'a', 't', 'e', '/'] ++ f := by
  rw [cleanLoop_elem true fuel _ _ _ _ (by decide) (Or.inr ⟨_, rfl⟩)
      (by simp only [List.length_append, List.length_cons, List.length_nil]; omega)]
  rw [cleanLoop_slash_len]
  rw [cleanLoop_elem_len true _ _ _ _ (by decide) (Or.inr ⟨_, rfl⟩)]
  rw [cleanLoop_slash_len]
  rw [cleanLoop_elem_len true _ _ _ _ (by decide) (Or.inr ⟨_, rfl⟩)]
  rw [cleanLoop_slash_len]
  rw [cleanLoop_elem_len true _ _ _ _ (by decide) (Or.inr ⟨_, rfl⟩)]
  rw [cleanLoop_slash_len]
  rw [cleanLoop_elem_len true _ _ _ _ (by decide) (Or.inr ⟨_, rfl⟩)]
  rw [cleanLoop_slash_len]
  rw [cleanLoop_elem_len true _ _ _ _ he (Or.inl rfl)]
  rw [cleanLoop_nil]
  simp [sep]

theorem cleanChars_blob (f : List Char) (he : IsElem f) :
    cleanChars (['/', 'g', 's', '/', 'y', 'o', 'u', 'r', 'b', 'u', 'c', 'k', 'e', 't', 'n', 'a', 'm', 'e', '.', 'a', 'p', 'p', 's', 'p', 'o', 't', '.', 'c', 'o', 'm', '/', 'i', 'm', 'a', 'g', 'e', '/', 't', 'e', 'm', 'p', '/', 'c', 'r', 'e', 'a', 't', 'e', '/'] ++ f)
      = ['/', 'g', 's', '/', 'y', 'o', 'u', 'r', 'b', 'u', 'c', 'k', 'e', 't', 'n', 'a', 'm', 'e', '.', 'a', 'p', 'p', 's', 'p', 'o', 't', '.', 'c', 'o', 'm', '/', 'i', 'm', 'a', 'g', 'e', '/', 't', 'e', 'm', 'p', '/', 'c', 'r', 'e', 'a', 't', 'e', '/'] ++ f := by
  have h := cleanLoop_blob f he (f.length + 49) (by omega)
  simp only [List.append_nil] at h
  simp only [cleanChars, List.cons_append, List.nil_append, List.length_cons] at h ⊢
  simp [h]

theorem join_blob_path (f : String) (hf : CleanName f) :
    Join ["/gs", bucketName, "image/temp/create/" ++ f]
      = "/gs/yourbucketname.appspot.com/image/temp/create/" ++ f := by
  have he := hf.isElem
  have hbuf : joinBuf ["/gs", bucketName, "image/temp/create/" ++ f] ""
      = "/gs" ++ "/" ++ bucketName ++ "/" ++ ("image/temp/create/" ++ f) := by
    rw [joinBuf_first _ _ (by decide), joinBuf_next _ _ _ (by decide),
      joinBuf_next _ _ _ (append_ne_empty _ _ (by decide))]
    rfl
  have h3 : ("/gs" : String).length = 3 := by decide
  have hsize : ((["/gs", bucketName, "image/temp/create/" ++ f].map String.length).sum == 0)
      = false := by
    simp only [List.map_cons, List.sum_cons, h3]
    rw [beq_eq_false_iff_ne]
    omega
  unfold Join
  simp only [hsize, hbuf]
  apply String.ext
  have hd : ("/gs" ++ "/" ++ bucketName ++ "/" ++ ("image/temp/create/" ++ f)).data
      = ['/', 'g', 's', '/', 'y', 'o', 'u', 'r', 'b', 'u', 'c', 'k', 'e', 't', 'n', 'a', 'm', 'e', '.', 'a', 'p', 'p', 's', 'p', 'o', 't', '.', 'c', 'o', 'm', '/', 'i', 'm', 'a', 'g', 'e', '/', 't', 'e', 'm', 'p', '/', 'c', 'r', 'e', 'a', 't', 'e', '/'] ++ f.data := by
    simp only [String.data_append]
    rfl
  simp only [Clean, hd, cleanChars_blob f.data he, String.data_append]
  rfl

/-! ## The upload pipeline -/

/-- Every run of `handleUploadImage` ends at one of its return points. -/
theorem handleUploadImage_outcome (S : Services σ) (E : Env) (r : Request) (st : σ)
    (w : ResponseWriter) :
    Outcome S E r st w (handleUploadImage S E r (World.init st w)) := by
  rcases hF : r.FormFile uploadImageKey with err | ⟨file, fh⟩
  · have h := @Outcome.noFile σ S E r st w err hF
    simpa [handleUploadImage, World.formFile, World.Infof, World.httpError, World.emit,
      World.init, hF] using h
  rcases hR : file.content with err | data
  · have h := @Outcome.readFails σ S E r st w file fh err hF hR
    simpa [handleUploadImage, World.formFile, World.readAll, World.fileClose, World.Errorf,
      World.httpError, World.emit, World.init, hF, hR] using h
  rcases hW : S.write (uploadWriter E fh.Filename) data st with ⟨err | n, st1⟩
  · have h := @Outcome.writeFails σ S E r st w file fh data err st1 hF hR hW
    simp only [uploadWriter, uploadPath] at hW
    simpa [handleUploadImage, World.formFile, World.readAll, World.fileClose, World.Errorf,
      World.Infof, World.httpError, World.emit, World.init, World.storeWrite, NewWriter,
      preamble, uploadWriter, uploadPath, hF, hR, hW] using h
  rcases hC : S.close (uploadWriter E fh.Filename) st1 with ⟨err | u, st2⟩
  · have h := @Outcome.closeFails σ S E r st w file fh data n err st1 st2 hF hR hW hC
    simp only [uploadWriter, uploadPath] at hW hC
    simpa [handleUploadImage, World.formFile, World.readAll, World.fileClose, World.Errorf,
      World.Infof, World.httpError, World.emit, World.init, World.storeWrite,
      World.storeClose, NewWriter, preamble, uploadWriter, uploadPath, hF, hR, hW, hC] using h
  rcases hS : S.statObject bucketName (uploadPath fh.Filename) st2 with ⟨err | obj, st3⟩
  · have h := @Outcome.statFails σ S E r st w file fh data n err st1 st2 st3 hF hR hW hC hS
    simp only [uploadWriter, uploadPath] at hW hC hS
    simpa [handleUploadImage, World.formFile, World.readAll, World.fileClose, World.Errorf,
      World.Infof, World.httpError, World.emit, World.init, World.storeWrite,
      World.storeClose, World.StatObject, NewWriter, preamble, uploadWriter, uploadPath,
      hF, hR, hW, hC, hS] using h
  rcases hB : S.blobKeyForFile (blobPath obj) st3 with ⟨err | key, st4⟩
  · have h := @Outcome.blobKeyFails σ S E r st w file fh data n obj err st1 st2 st3 st4
      hF hR hW hC hS hB
    simp only [uploadWriter, uploadPath, blobPath] at hW hC hS hB
    simpa [handleUploadImage, World.formFile, World.readAll, World.fileClose, World.Errorf,
      World.Infof, World.httpError, World.emit, World.init, World.storeWrite,
      World.storeClose, World.StatObject, World.BlobKeyForFile, NewWriter, preamble,
      uploadWriter, uploadPath, blobPath, hF, hR, hW, hC, hS, hB] using h
  rcases hU : S.servingURL key { Secure := true } st4 with ⟨err | url, st5⟩
  · have h := @Outcome.urlFails σ S E r st w file fh data n obj key err st1 st2 st3 st4 st5
      hF hR hW hC hS hB hU
    simp only [uploadWriter, uploadPath, blobPath] at hW hC hS hB
    simpa [handleUploadImage, World.formFile, World.readAll, World.fileClose, World.Errorf,
      World.Infof, World.httpError, World.emit, World.init, World.storeWrite,
      World.storeClose, World.StatObject, World.BlobKeyForFile, World.ServingURL,
      getImageUrl, NewWriter, preamble, uploadWriter, uploadPath, blobPath,
      hF, hR, hW, hC, hS, hB, hU] using h
  rcases hX : (w.Write (successBody E key url)).1 with err | m
  · have h := @Outcome.respWriteFails σ S E r st w file fh data n obj key url err
      st1 st2 st3 st4 st5 hF hR hW hC hS hB hU hX
    simp only [uploadWriter, uploadPath, blobPath, successBody] at hW hC hS hB hX
    simpa [handleUploadImage, World.formFile, World.readAll, World.fileClose, World.Errorf,
      World.Infof, World.httpError, World.emit, World.init, World.storeWrite,
      World.storeClose, World.StatObject, World.BlobKeyForFile, World.ServingURL,
      World.respWrite, getImageUrl, jsonMarshal, NewWriter, preamble, uploadWriter,
      uploadPath, blobPath, successBody, hF, hR, hW, hC, hS, hB, hU, hX] using h
  · have h := @Outcome.done σ S E r st w file fh data n obj key url m
      st1 st2 st3 st4 st5 hF hR hW hC hS hB hU hX
    simp only [uploadWriter, uploadPath, blobPath, successBody] at hW hC hS hB hX
    simpa [handleUploadImage, World.formFile, World.readAll, World.fileClose, World.Errorf,
      World.Infof, World.httpError, World.emit, World.init, World.storeWrite,
      World.storeClose, World.StatObject, World.BlobKeyForFile, World.ServingURL,
      World.respWrite, getImageUrl, jsonMarshal, NewWriter, preamble, uploadWriter,
      uploadPath, blobPath, successBody, hF, hR, hW, hC, hS, hB, hU, hX] using h

theorem empty_append_string (s : String) : "" ++ s = s :=
  String.ext (by simp)

theorem freshWriter_Error (fault : Option String) (msg : String) (code : Nat) :
    (freshWriter fault).Error msg code
      = { status := some code, body := msg ++ "\n", fault := fault } := by
  cases fault <;>
    simp [freshWriter, ResponseWriter.Error, ResponseWriter.Write, ResponseWriter.WriteHeader,
      empty_append_string]

theorem freshWriter_Write (fault : Option String) (buf : String) :
    ((freshWriter fault).Write buf).2
      = { status := some StatusOK, body := buf, fault := fault } := by
  cases fault <;>
    simp [freshWriter, ResponseWriter.Write, ResponseWriter.WriteHeader, empty_append_string]

theorem freshWriter_Write_Error (fault : Option String) (buf msg : String) (code : Nat) :
    ((freshWriter fault).Write buf).2.Error msg code
      = { status := some StatusOK, body := buf ++ (msg ++ "\n"), fault := fault } := by
  rw [freshWriter_Write]
  cases fault <;>
    simp [ResponseWriter.Error, ResponseWriter.Write, ResponseWriter.WriteHeader]

/-- C4. In every run the collaborator calls are an initial part of the fixed
order write, close, stat, blob-key resolve, URL resolve (so each is made at most
once, nothing is retried and nothing is deleted), every collaborator call but
the last one of the run succeeded (a failed step is followed by no further
collaborator call), and at most one object-store write is made. -/
theorem collaborator_calls_in_order (S : Services σ) (E : Env) (r : Request) (st : σ)
    (w : ResponseWriter) :
    ((steps (handleUploadImage S E r (World.init st w)).calls).map Prod.fst <+: pipelineOrder)
    ∧ (∀ s ∈ (steps (handleUploadImage S E r (World.init st w)).calls).dropLast, s.2 = true)
    ∧ (storeWrites (handleUploadImage S E r (World.init st w)).calls).length ≤ 1
    ∧ (∀ s ∈ steps (handleUploadImage S E r (World.init st w)).calls, s.1 ≠ Step.delete) := by
  have h := handleUploadImage_outcome S E r st w
  generalize handleUploadImage S E r (World.init st w) = out at h
  cases h <;>
    simp [steps, storeWrites, pipelineOrder, preamble, isOk, List.prefix_cons_iff]

theorem formFile_missing (r : Request) (form : List (String × List FileHeader)) (key : String)
    (hform : r.MultipartForm = .ok form) (hkey : form.lookup key = none) :
    r.FormFile key = .error ErrMissingFile := by
  simp [Request.FormFile, hform, hkey]

theorem not_unreadable {r : Request} {file : File} {fh : FileHeader} {data : Bytes}
    (hF : r.FormFile uploadImageKey = .ok (file, fh)) (hR : file.content = .ok data) :
    ¬ ((∃ err, r.FormFile uploadImageKey = .error err)
      ∨ (∃ file fh err, r.FormFile uploadImageKey = .ok (file, fh)
          ∧ file.content = .error err)) := by
  rintro (⟨err, he⟩ | ⟨file1, fh1, err, he, hc⟩)
  · rw [hF] at he; cases he
  · rw [hF] at he
    cases he
    rw [hR] at hc; cases hc

/-- C2. When the form has no file under the key `image`, or `FormFile` fails in
any other way, or reading the file stream fails, the handler calls `http.Error`
once, with status 400 and the fixed message `Failed to get uploaded image`
whatever the underlying error was; the response has status 400 and that message
(as a line) for body, nothing else is written, no collaborator is called and
the state of the services is unchanged. -/
theorem unreadable_upload_is_bad_request (S : Services σ) (E : Env) (r : Request) (st : σ)
    (fault : Option String)
    (h : (∃ form, r.MultipartForm = .ok form ∧ form.lookup uploadImageKey = none)
      ∨ (∃ err, r.FormFile uploadImageKey = .error err)
      ∨ (∃ file fh err, r.FormFile uploadImageKey = .ok (file, fh)
          ∧ file.content = .error err)) :
    (handleUploadImage S E r (World.init st (freshWriter fault))).w.status = some 400
    ∧ (handleUploadImage S E r (World.init st (freshWriter fault))).w.body
        = "Failed to get uploaded image" ++ "\n"
    ∧ (handleUploadImage S E r (World.init st (freshWriter fault))).w.body ≠ ""
    ∧ httpErrors (handleUploadImage S E r (World.init st (freshWriter fault))).calls
        = [("Failed to get uploaded image", 400)]
    ∧ respWrites (handleUploadImage S E r (World.init st (freshWriter fault))).calls = []
    ∧ steps (handleUploadImage S E r (World.init st (freshWriter fault))).calls = []
    ∧ (handleUploadImage S E r (World.init st (freshWriter fault))).services = st := by
  have hbody : "Failed to get uploaded image" ++ "\n" ≠ "" := by decide
  have h1 : (∃ err, r.FormFile uploadImageKey = .error err)
      ∨ (∃ file fh err, r.FormFile uploadImageKey = .ok (file, fh)
          ∧ file.content = .error err) := by
    rcases h with ⟨form, hform, hkey⟩ | h | h
    · exact Or.inl ⟨_, formFile_missing r form _ hform hkey⟩
    · exact Or.inl h
    · exact Or.inr h
  have ho := handleUploadImage_outcome S E r st (freshWriter fault)
  generalize handleUploadImage S E r (World.init st (freshWriter fault)) = out at ho
  cases ho with
  | noFile err hF =>
    simp [freshWriter_Error, httpErrors, respWrites, steps, StatusBadRequest, hbody]
  | readFails file fh err hF hR =>
    simp [freshWriter_Error, httpErrors, respWrites, steps, StatusBadRequest, hbody]
  | writeFails file fh data err st1 hF hR hW => exact absurd h1 (not_unreadable hF hR)
  | closeFails file fh data n err st1 st2 hF hR hW hC => exact absurd h1 (not_unreadable hF hR)
  | statFails file fh data n err st1 st2 st3 hF hR hW hC hS =>
    exact absurd h1 (not_unreadable hF hR)
  | blobKeyFails file fh data n obj err st1 st2 st3 st4 hF hR hW hC hS hB =>
    exact absurd h1 (not_unreadable hF hR)
  | urlFails file fh data n obj key err st1 st2 st3 st4 st5 hF hR hW hC hS hB hU =>
    exact absurd h1 (not_unreadable hF hR)
  | respWriteFails file fh data n obj key url err st1 st2 st3 st4 st5 hF hR hW hC hS hB hU hX =>
    exact absurd h1 (not_unreadable hF hR)
  | done file fh data n obj key url m st1 st2 st3 st4 st5 hF hR hW hC hS hB hU hX =>
    exact absurd h1 (not_unreadable hF hR)

/-- Witness for C2: a form without any file. -/
theorem unreadable_upload_is_bad_request_witness :
    (handleUploadImage memServices plainEnv emptyFormRequest
        (World.init {} (freshWriter none))).w.status = some 400
    ∧ (handleUploadImage memServices plainEnv emptyFormRequest
        (World.init {} (freshWriter none))).w.body = "Failed to get uploaded image" ++ "\n"
    ∧ (handleUploadImage memServices plainEnv emptyFormRequest
        (World.init {} (freshWriter none))).w.body ≠ ""
    ∧ httpErrors (handleUploadImage memServices plainEnv emptyFormRequest
        (World.init {} (freshWriter none))).calls = [("Failed to get uploaded image", 400)]
    ∧ respWrites (handleUploadImage memServices plainEnv emptyFormRequest
        (World.init {} (freshWriter none))).calls = []
    ∧ steps (handleUploadImage memServices plainEnv emptyFormRequest
        (World.init {} (freshWriter none))).calls = []
    ∧ (handleUploadImage memServices plainEnv emptyFormRequest
        (World.init {} (freshWriter none))).services = {} :=
  unreadable_upload_is_bad_request memServices plainEnv emptyFormRequest {} none
    (Or.inl ⟨[], rfl, rfl⟩)

/-- C3. When a collaborator call of the run fails (the store write, the close,
the stat, the blob-key resolution or the URL resolution), the response has
status 500, the handler calls `http.Error` once, with status 500, and never
writes the JSON body: the body is the line of the error message. -/
theorem collaborator_failure_is_internal_error (S : Services σ) (E : Env) (r : Request)
    (st : σ) (fault : Option String)
    (hfail : ∃ s ∈ steps (handleUploadImage S E r (World.init st (freshWriter fault))).calls,
      s.2 = false) :
    (handleUploadImage S E r (World.init st (freshWriter fault))).w.status = some 500
    ∧ respWrites (handleUploadImage S E r (World.init st (freshWriter fault))).calls = []
    ∧ ∃ msg, httpErrors (handleUploadImage S E r (World.init st (freshWriter fault))).calls
          = [(msg, 500)]
        ∧ (handleUploadImage S E r (World.init st (freshWriter fault))).w.body
          = msg ++ "\n" := by
  have ho := handleUploadImage_outcome S E r st (freshWriter fault)
  generalize handleUploadImage S E r (World.init st (freshWriter fault)) = out at ho hfail
  cases ho <;>
    simp [steps, preamble, isOk] at hfail <;>
    simp [freshWriter_Error, httpErrors, respWrites, preamble, StatusInternalServerError]

/-- Witness for C3: the store refuses the write. -/
theorem collaborator_failure_is_internal_error_witness :
    (handleUploadImage readOnlyServices plainEnv (uploadRequest "image" "cat.jpg" [1, 2, 3])
        (World.init {} (freshWriter none))).w.status = some 500
    ∧ respWrites (handleUploadImage readOnlyServices plainEnv
        (uploadRequest "image" "cat.jpg" [1, 2, 3]) (World.init {} (freshWriter none))).calls = []
    ∧ ∃ msg, httpErrors (handleUploadImage readOnlyServices plainEnv
          (uploadRequest "image" "cat.jpg" [1, 2, 3]) (World.init {} (freshWriter none))).calls
          = [(msg, 500)]
        ∧ (handleUploadImage readOnlyServices plainEnv
          (uploadRequest "image" "cat.jpg" [1, 2, 3]) (World.init {} (freshWriter none))).w.body
          = msg ++ "\n" :=
  collaborator_failure_is_internal_error readOnlyServices plainEnv
    (uploadRequest "image" "cat.jpg" [1, 2, 3]) {} none
    ⟨(Step.write, false), by decide, rfl⟩

theorem not_readable_of_error {r : Request} {err : String}
    (hF : r.FormFile uploadImageKey = .error err) :
    ¬ ∃ file fh data, r.FormFile uploadImageKey = .ok (file, fh)
        ∧ file.content = (Except.ok data : Except String Bytes) := by
  rintro ⟨file, fh, data, he, _⟩
  rw [hF] at he; cases he

theorem not_readable_of_read_error {r : Request} {file : File} {fh : FileHeader} {err : String}
    (hF : r.FormFile uploadImageKey = .ok (file, fh)) (hR : file.content = .error err) :
    ¬ ∃ file fh data, r.FormFile uploadImageKey = .ok (file, fh)
        ∧ file.content = (Except.ok data : Except String Bytes) := by
  rintro ⟨file1, fh1, data, he, hc⟩
  rw [hF] at he
  cases he
  rw [hR] at hc; cases hc

/-- C1, as the code has it. When the file is present and readable, every
collaborator call of the run succeeds and the response writer accepts the write,
the handler never calls `http.Error` and writes one response body, the JSON
serialisation of `ImageInfo` with `Key` the key the blob resolver returned and
`Url` the string of the URL the URL resolver returned for that key under
`Secure = true`; the status is 200. -/
theorem successful_upload_response (S : Services σ) (E : Env) (r : Request) (st : σ)
    (fault : Option String)
    (hread : ∃ file fh data, r.FormFile uploadImageKey = .ok (file, fh)
      ∧ file.content = .ok data)
    (hall : ∀ s ∈ steps (handleUploadImage S E r (World.init st (freshWriter fault))).calls,
      s.2 = true)
    (hw : fault = none) :
    httpErrors (handleUploadImage S E r (World.init st (freshWriter fault))).calls = []
    ∧ ∃ name key url body,
        blobKeyCalls (handleUploadImage S E r (World.init st (freshWriter fault))).calls
          = [(name, .ok key)]
        ∧ servingURLCalls (handleUploadImage S E r (World.init st (freshWriter fault))).calls
          = [(key, { Secure := true }, .ok url)]
        ∧ jsonMarshal E.jsonQuote { Key := key, Url := url.String } = .ok body
        ∧ respWrites (handleUploadImage S E r (World.init st (freshWriter fault))).calls = [body]
        ∧ (handleUploadImage S E r (World.init st (freshWriter fault))).w.body = body
        ∧ (handleUploadImage S E r (World.init st (freshWriter fault))).w.status = some 200 := by
  subst hw
  have ho := handleUploadImage_outcome S E r st (freshWriter none)
  generalize handleUploadImage S E r (World.init st (freshWriter none)) = out at ho hall
  cases ho with
  | noFile err hF => exact absurd hread (not_readable_of_error hF)
  | readFails file fh err hF hR => exact absurd hread (not_readable_of_read_error hF hR)
  | writeFails file fh data err st1 hF hR hW => simp [steps, preamble, isOk] at hall
  | closeFails file fh data n err st1 st2 hF hR hW hC => simp [steps, preamble, isOk] at hall
  | statFails file fh data n err st1 st2 st3 hF hR hW hC hS =>
    simp [steps, preamble, isOk] at hall
  | blobKeyFails file fh data n obj err st1 st2 st3 st4 hF hR hW hC hS hB =>
    simp [steps, preamble, isOk] at hall
  | urlFails file fh data n obj key err st1 st2 st3 st4 st5 hF hR hW hC hS hB hU =>
    simp [steps, preamble, isOk] at hall
  | respWriteFails file fh data n obj key url err st1 st2 st3 st4 st5 hF hR hW hC hS hB hU hX =>
    simp [freshWriter, ResponseWriter.Write, ResponseWriter.WriteHeader] at hX
  | done file fh data n obj key url m st1 st2 st3 st4 st5 hF hR hW hC hS hB hU hX =>
    refine ⟨by simp [httpErrors, preamble], blobPath obj, key, url, successBody E key url, ?_⟩
    simp [blobKeyCalls, servingURLCalls, respWrites, preamble, jsonMarshal, successBody,
      freshWriter_Write, StatusOK]

/-- Witness for C1: the upload of `cat.jpg` to the in-memory services. -/
theorem successful_upload_response_witness :
    httpErrors (catRun none).calls = []
    ∧ ∃ name key url body,
        blobKeyCalls (catRun none).calls = [(name, .ok key)]
        ∧ servingURLCalls (catRun none).calls = [(key, { Secure := true }, .ok url)]
        ∧ jsonMarshal plainEnv.jsonQuote { Key := key, Url := url.String } = .ok body
        ∧ respWrites (catRun none).calls = [body]
        ∧ (catRun none).w.body = body
        ∧ (catRun none).w.status = some 200 :=
  successful_upload_response memServices plainEnv catRequest {} none
    ⟨_, _, _, rfl, rfl⟩ (by decide) rfl

/-- C1 as stated fails: the file of `catRequest` is present and readable and
all five collaborator calls succeed, but the response writer reports an error
on `Write`, and the handler calls `http.Error`. -/
theorem successful_upload_response_counterexample :
    (∃ file fh data, catRequest.FormFile uploadImageKey = .ok (file, fh)
      ∧ file.content = .ok data)
    ∧ steps (catRun (some "broken pipe")).calls
        = [(.write, true), (.close, true), (.stat, true), (.blobKey, true), (.servingURL, true)]
    ∧ httpErrors (catRun (some "broken pipe")).calls = [("broken pipe", 500)] :=
  ⟨⟨_, _, _, rfl, rfl⟩, by decide, by decide⟩

theorem lowerLookup_eq (T : MimeTables) (ext : String) (cs lower : List Char) :
    lowerLookup T ext cs lower
      = (T.mimeTypesLower.lookup
          (if cs.any (fun c => decide (c.toNat ≥ 0x80)) then T.toLower ext
           else String.mk (lower ++ cs.map (fun c =>
            if 'A' ≤ c ∧ c ≤ 'Z' then Char.ofNat (c.toNat + ('a'.toNat - 'A'.toNat))
            else c)))).getD "" := by
  induction cs generalizing lower with
  | nil => simp [lowerLookup]
  | cons c cs ih =>
    by_cases h80 : c.toNat ≥ 0x80
    · simp [lowerLookup, h80]
    · by_cases hup : 'A' ≤ c ∧ c ≤ 'Z'
      · simp [lowerLookup, h80, hup, ih]
      · simp only [lowerLookup, h80, hup, ih, if_false, List.any_cons, decide_False,
          Bool.false_or, List.map_cons, List.append_assoc, List.singleton_append]

theorem typeByExtension_not_in_table (T : MimeTables) (ext : String) (h : ¬ InTable T ext) :
    TypeByExtension T ext = "" := by
  simp only [InTable, not_or, not_not] at h
  have h2 : lowerLookup T ext ext.data [] = "" := by
    rw [lowerLookup_eq]
    have := h.2
    simp only [lowerExt] at this
    simp only [List.nil_append, this, Option.getD_none]
  simp only [TypeByExtension, h.1, h2]

theorem all_ok_response (S : Services σ) (E : Env) (r : Request) (st : σ)
    (hread : ∃ file fh data, r.FormFile uploadImageKey = .ok (file, fh)
      ∧ file.content = .ok data)
    (hall : ∀ s ∈ steps (handleUploadImage S E r (World.init st (freshWriter none))).calls,
      s.2 = true) :
    httpErrors (handleUploadImage S E r (World.init st (freshWriter none))).calls = []
    ∧ ∃ name key url body,
        blobKeyCalls (handleUploadImage S E r (World.init st (freshWriter none))).calls
          = [(name, .ok key)]
        ∧ servingURLCalls (handleUploadImage S E r (World.init st (freshWriter none))).calls
          = [(key, { Secure := true }, .ok url)]
        ∧ jsonMarshal E.jsonQuote { Key := key, Url := url.String } = .ok body
        ∧ respWrites (handleUploadImage S E r (World.init st (freshWriter none))).calls = [body]
        ∧ (handleUploadImage S E r (World.init st (freshWriter none))).w.body = body
        ∧ (handleUploadImage S E r (World.init st (freshWriter none))).w.status = some 200 := by
  have ho := handleUploadImage_outcome S E r st (freshWriter none)
  generalize handleUploadImage S E r (World.init st (freshWriter none)) = out at ho hall
  cases ho with
  | noFile err hF => exact absurd hread (not_readable_of_error hF)
  | readFails file fh err hF hR => exact absurd hread (not_readable_of_read_error hF hR)
  | respWriteFails file fh data n obj key url err st1 st2 st3 st4 st5 hF hR hW hC hS hB hU hX =>
    simp [freshWriter, ResponseWriter.Write, ResponseWriter.WriteHeader] at hX
  | done file fh data n obj key url m st1 st2 st3 st4 st5 hF hR hW hC hS hB hU hX =>
    refine ⟨by simp [httpErrors, preamble], blobPath obj, key, url, successBody E key url, ?_⟩
    simp [blobKeyCalls, servingURLCalls, respWrites, preamble, jsonMarshal, successBody,
      freshWriter_Write, StatusOK]
  | _ => simp [steps, preamble, isOk] at hall

/-- C5, as the code has it. The content type of the writer on which the handler
calls `Write` is `mime.TypeByExtension(path.Ext(filename))`. With the built-in
table this is `image/png` for `a.png`, `image/jpeg` for `cat.jpg`, and empty for
`a.unknownext` and for a name without a dot; it is empty for every file name
whose extension has no associated type. An empty content type stops nothing:
the write is made all the same, and when every collaborator call succeeds and
the response writer accepts the write, the run ends in the success response:
no `http.Error`, status 200, and one body, the JSON serialisation of the key
the blob resolver returned and of the URL the URL resolver returned for it. -/
theorem content_type_of_upload (S : Services σ) (E : Env) (r : Request) (st : σ)
    (fault : Option String) (file : File) (fh : FileHeader) (data : Bytes)
    (hF : r.FormFile uploadImageKey = .ok (file, fh)) (hR : file.content = .ok data) :
    (storeWrites (handleUploadImage S E r (World.init st (freshWriter fault))).calls).map
        (fun p => (p.1.ContentType, p.2)) = [(TypeByExtension E.mime (Ext fh.Filename), data)]
    ∧ TypeByExtension builtinTables (Ext "a.png") = "image/png"
    ∧ TypeByExtension builtinTables (Ext "cat.jpg") = "image/jpeg"
    ∧ TypeByExtension builtinTables (Ext "a.unknownext") = ""
    ∧ TypeByExtension builtinTables (Ext "noext") = ""
    ∧ (¬ InTable E.mime (Ext fh.Filename) → TypeByExtension E.mime (Ext fh.Filename) = "")
    ∧ (TypeByExtension E.mime (Ext fh.Filename) = "" →
        (∀ s ∈ steps (handleUploadImage S E r (World.init st (freshWriter fault))).calls,
          s.2 = true) →
        fault = none →
        httpErrors (handleUploadImage S E r (World.init st (freshWriter fault))).calls = []
        ∧ ∃ name key url body,
            blobKeyCalls (handleUploadImage S E r (World.init st (freshWriter fault))).calls
              = [(name, .ok key)]
            ∧ servingURLCalls
                (handleUploadImage S E r (World.init st (freshWriter fault))).calls
              = [(key, { Secure := true }, .ok url)]
            ∧ jsonMarshal E.jsonQuote { Key := key, Url := url.String } = .ok body
            ∧ respWrites (handleUploadImage S E r (World.init st (freshWriter fault))).calls
              = [body]
            ∧ (handleUploadImage S E r (World.init st (freshWriter fault))).w.body = body
            ∧ (handleUploadImage S E r (World.init st (freshWriter fault))).w.status
              = some 200) := by
  refine ⟨?_, by decide, by decide, by decide, by decide,
    typeByExtension_not_in_table _ _, ?_⟩
  · have ho := handleUploadImage_outcome S E r st (freshWriter fault)
    generalize handleUploadImage S E r (World.init st (freshWriter fault)) = out at ho
    cases ho <;> simp_all [storeWrites, preamble, uploadWriter]
  · intro _ hall hw
    subst hw
    exact all_ok_response S E r st ⟨file, fh, data, hF, hR⟩ hall

/-- Witness for C5: a file name with an extension outside the table, uploaded
to the in-memory services through a writer that accepts writes. -/
theorem content_type_of_upload_witness :
    (storeWrites (unknownExtRun none).calls).map (fun p => (p.1.ContentType, p.2))
      = [(TypeByExtension plainEnv.mime (Ext "a.unknownext"), [7])]
    ∧ TypeByExtension plainEnv.mime (Ext "a.unknownext") = ""
    ∧ httpErrors (unknownExtRun none).calls = []
    ∧ ∃ name key url body,
        blobKeyCalls (unknownExtRun none).calls = [(name, .ok key)]
        ∧ servingURLCalls (unknownExtRun none).calls = [(key, { Secure := true }, .ok url)]
        ∧ jsonMarshal plainEnv.jsonQuote { Key := key, Url := url.String } = .ok body
        ∧ respWrites (unknownExtRun none).calls = [body]
        ∧ (unknownExtRun none).w.body = body
        ∧ (unknownExtRun none).w.status = some 200 :=
  have h := content_type_of_upload memServices plainEnv
    (uploadRequest "image" "a.unknownext" [7]) {} none
    { content := .ok [7] } { Filename := "a.unknownext", file := .ok { content := .ok [7] } } [7]
    rfl rfl
  ⟨h.1, by decide, h.2.2.2.2.2.2 (by decide) (by decide) rfl⟩

/-- C5 as stated fails in its last part: the upload of `a.unknownext` has an
empty content type, its file is readable and all five collaborator calls
succeed, but the response writer reports an error on `Write`; the handler then
calls `http.Error`, and what was handed to the writer is the JSON followed by
the error line, not the success response alone. -/
theorem content_type_of_upload_counterexample :
    (storeWrites (unknownExtRun (some "broken pipe")).calls).map
        (fun p => (p.1.ContentType, p.2)) = [("", [7])]
    ∧ steps (unknownExtRun (some "broken pipe")).calls
        = [(.write, true), (.close, true), (.stat, true), (.blobKey, true), (.servingURL, true)]
    ∧ httpErrors (unknownExtRun (some "broken pipe")).calls = [("broken pipe", 500)]
    ∧ ∃ body, respWrites (unknownExtRun (some "broken pipe")).calls = [body]
        ∧ (unknownExtRun (some "broken pipe")).w.body = body ++ "broken pipe\n" :=
  ⟨by decide, by decide, by decide, _, rfl, rfl⟩

/-- C6. For a client file name that is a single clean path element (non-empty,
no slash, not `.` or `..`), the one write of the run goes to the bucket
`yourbucketname.appspot.com` at the path `image/temp/create/` followed by the
file name: the path is a function of the file name alone, whatever the bytes. -/
theorem clean_name_upload_path (S : Services σ) (E : Env) (r : Request) (st : σ)
    (fault : Option String) (file : File) (fh : FileHeader) (data : Bytes)
    (hF : r.FormFile uploadImageKey = .ok (file, fh)) (hR : file.content = .ok data)
    (hf : CleanName fh.Filename) :
    storeWrites (handleUploadImage S E r (World.init st (freshWriter fault))).calls
      = [({ bucket := "yourbucketname.appspot.com"
            name := "image/temp/create/" ++ fh.Filename
            ContentType := TypeByExtension E.mime (Ext fh.Filename) }, data)] := by
  have hp := join_upload_path fh.Filename hf
  have ho := handleUploadImage_outcome S E r st (freshWriter fault)
  generalize handleUploadImage S E r (World.init st (freshWriter fault)) = out at ho
  cases ho <;> simp_all [storeWrites, preamble, uploadWriter, uploadPath, bucketName]

/-- Witness for C6: `cat.jpg` is stored at `image/temp/create/cat.jpg`. -/
theorem clean_name_upload_path_witness :
    storeWrites (catRun none).calls
      = [({ bucket := "yourbucketname.appspot.com"
            name := "image/temp/create/" ++ "cat.jpg"
            ContentType := TypeByExtension plainEnv.mime (Ext "cat.jpg") }, [1, 2, 3])] :=
  clean_name_upload_path memServices plainEnv catRequest {} none
    { content := .ok [1, 2, 3] }
    { Filename := "cat.jpg", file := .ok { content := .ok [1, 2, 3] } } [1, 2, 3]
    rfl rfl (by decide)

/-- C9. When `StatObject` returned the object `obj`, the name handed to the blob
resolver is `path.Join("/gs", bucketName, obj.Name)`, built from the name the
stat reported. If moreover the file name is a single clean path element and the
reported name is the path that was written, that name is
`/gs/yourbucketname.appspot.com/image/temp/create/` followed by the file name. -/
theorem blob_path_from_stat_name (S : Services σ) (E : Env) (r : Request) (st : σ)
    (fault : Option String) (obj : Object)
    (hstat : statResults (handleUploadImage S E r (World.init st (freshWriter fault))).calls
      = [.ok obj]) :
    (blobKeyCalls (handleUploadImage S E r (World.init st (freshWriter fault))).calls).map
        Prod.fst = [Join ["/gs", bucketName, obj.Name]]
    ∧ ∀ file fh, r.FormFile uploadImageKey = .ok (file, fh) → CleanName fh.Filename →
        (storeWrites (handleUploadImage S E r (World.init st (freshWriter fault))).calls).map
          (fun p => p.1.name) = [obj.Name] →
        (blobKeyCalls (handleUploadImage S E r (World.init st (freshWriter fault))).calls).map
          Prod.fst = ["/gs/yourbucketname.appspot.com/image/temp/create/" ++ fh.Filename] := by
  have ho := handleUploadImage_outcome S E r st (freshWriter fault)
  generalize handleUploadImage S E r (World.init st (freshWriter fault)) = out at ho hstat
  have key : (blobKeyCalls out.calls).map Prod.fst = [Join ["/gs", bucketName, obj.Name]] := by
    cases ho <;> simp_all [statResults, blobKeyCalls, preamble, blobPath]
  refine ⟨key, ?_⟩
  intro file fh hF hf hname
  have hp := join_upload_path fh.Filename hf
  have hb := join_blob_path fh.Filename hf
  have hn : obj.Name = "image/temp/create/" ++ fh.Filename := by
    cases ho <;> simp_all [statResults, storeWrites, preamble, uploadWriter, uploadPath]
  rw [key, hn, hb]

/-- Witness for C9: the upload of `cat.jpg` to the in-memory services. -/
theorem blob_path_from_stat_name_witness :
    (blobKeyCalls (catRun none).calls).map Prod.fst
      = [Join ["/gs", bucketName, "image/temp/create/cat.jpg"]]
    ∧ (blobKeyCalls (catRun none).calls).map Prod.fst
      = ["/gs/yourbucketname.appspot.com/image/temp/create/" ++ "cat.jpg"] :=
  have h := blob_path_from_stat_name memServices plainEnv catRequest {} none
    { Bucket := bucketName, Name := "image/temp/create/cat.jpg", ContentType := "image/jpeg",
      Size := 3 } rfl
  ⟨h.1, h.2 { content := .ok [1, 2, 3] }
    { Filename := "cat.jpg", file := .ok { content := .ok [1, 2, 3] } } rfl (by decide) rfl⟩

/-- C10. The stored path can leave the temporary-upload prefix: for the client
file names `../../x.png` and `..` the handler writes at `image/x.png` and at
`image/temp`, neither of which starts with `image/temp/create/`. -/
theorem upload_path_escapes_prefix :
    Join [tempImagePath, createTempImagePath, "../../x.png"] = "image/x.png"
    ∧ (storeWrites (namedRun "../../x.png").calls).map (fun p => p.1.name) = ["image/x.png"]
    ∧ ¬ ("image/temp/create/".data <+: "image/x.png".data)
    ∧ Join [tempImagePath, createTempImagePath, ".."] = "image/temp"
    ∧ (storeWrites (namedRun "..").calls).map (fun p => p.1.name) = ["image/temp"]
    ∧ ¬ ("image/temp/create/".data <+: "image/temp".data) := by
  refine ⟨by decide, by decide, by decide, by decide, by decide, by decide⟩

theorem memServices_run (E : Env) (filename : String) (data : Bytes)
    (objects : List ((String × String) × StoredObject)) :
    handleUploadImage memServices E (uploadRequest uploadImageKey filename data)
        (World.init { objects := objects, pending := none } (freshWriter none))
      = { services :=
            { objects := MemStore.put (bucketName, uploadPath filename)
                ⟨TypeByExtension E.mime (Ext filename), data⟩ objects
              pending := none }
          w := { status := some 200
                 body := successBody E ("encoded_gs_file:" ++ Join ["/gs", bucketName,
                    uploadPath filename])
                   { Scheme := "https", Host := "lh3.googleusercontent.com"
                     Path := "/" ++ ("encoded_gs_file:" ++ Join ["/gs", bucketName,
                       uploadPath filename]) }
                 fault := none }
          calls := preamble E filename data ++
            [.write (uploadWriter E filename) data (.ok data.length),
             .close (uploadWriter E filename) (.ok ()),
             .statObject bucketName (uploadPath filename)
               (.ok { Bucket := bucketName, Name := uploadPath filename
                      ContentType := TypeByExtension E.mime (Ext filename)
                      Size := data.length }),
             .log .info ("Getting blob key from path: " ++ Join ["/gs", bucketName,
               uploadPath filename]),
             .blobKeyForFile (Join ["/gs", bucketName, uploadPath filename])
               (.ok ("encoded_gs_file:" ++ Join ["/gs", bucketName, uploadPath filename])),
             .servingURL ("encoded_gs_file:" ++ Join ["/gs", bucketName, uploadPath filename])
               { Secure := true }
               (.ok { Scheme := "https", Host := "lh3.googleusercontent.com"
                      Path := "/" ++ ("encoded_gs_file:" ++ Join ["/gs", bucketName,
                        uploadPath filename]) }),
             .respWrite (successBody E ("encoded_gs_file:" ++ Join ["/gs", bucketName,
                    uploadPath filename])
                   { Scheme := "https", Host := "lh3.googleusercontent.com"
                     Path := "/" ++ ("encoded_gs_file:" ++ Join ["/gs", bucketName,
                       uploadPath filename]) }),
             .fileClose] } := by
  simp [handleUploadImage, World.formFile, World.readAll, World.fileClose, World.Errorf,
      World.Infof, World.httpError, World.emit, World.init, World.storeWrite,
      World.storeClose, World.StatObject, World.BlobKeyForFile, World.ServingURL,
      World.respWrite, getImageUrl, jsonMarshal, NewWriter, preamble, uploadWriter,
      uploadPath, successBody, memServices, uploadRequest, Request.FormFile, MemStore.put,
      freshWriter, ResponseWriter.Write, ResponseWriter.WriteHeader, empty_append_string,
      StatusOK, List.lookup]

theorem lookup_put (key : String × String) (o : StoredObject)
    (objects : List ((String × String) × StoredObject)) :
    (MemStore.put key o objects).lookup key = some o := by
  simp [MemStore.put, List.lookup]

theorem mem_put_same_key (key : String × String) (o : StoredObject)
    (objects : List ((String × String) × StoredObject)) (p : (String × String) × StoredObject)
    (hp : p ∈ MemStore.put key o objects) (hk : p.1 = key) : p.2 = o := by
  simp only [MemStore.put, List.mem_cons, List.mem_filter] at hp
  rcases hp with rfl | ⟨_, hne⟩
  · rfl
  · simp [hk] at hne

/-- C7. Two uploads with the same file name, payloads `d1` then `d2`, into the
path-keyed in-memory store: both writes go to the same writer target, the
second run starts its collaborator calls with the write (nothing looks for an
existing object first), after the first upload the path holds `d1`, after the
second it holds `d2`, the stat of the second upload reports the size of `d2`,
and every object the store then keeps under that path has the bytes `d2`. Both
uploads answer 200. -/
theorem same_name_upload_overwrites (E : Env) (filename : String) (d1 d2 : Bytes)
    (objects : List ((String × String) × StoredObject)) :
    storeWrites (firstUpload E filename d1 objects).calls
      = [({ bucket := bucketName
            name := Join [tempImagePath, createTempImagePath, filename]
            ContentType := TypeByExtension E.mime (Ext filename) }, d1)]
    ∧ storeWrites (secondUpload E filename d1 d2 objects).calls
      = [({ bucket := bucketName
            name := Join [tempImagePath, createTempImagePath, filename]
            ContentType := TypeByExtension E.mime (Ext filename) }, d2)]
    ∧ (steps (secondUpload E filename d1 d2 objects).calls).head? = some (Step.write, true)
    ∧ (firstUpload E filename d1 objects).services.objects.lookup
        (bucketName, Join [tempImagePath, createTempImagePath, filename])
      = some ⟨TypeByExtension E.mime (Ext filename), d1⟩
    ∧ (secondUpload E filename d1 d2 objects).services.objects.lookup
        (bucketName, Join [tempImagePath, createTempImagePath, filename])
      = some ⟨TypeByExtension E.mime (Ext filename), d2⟩
    ∧ statResults (secondUpload E filename d1 d2 objects).calls
      = [.ok { Bucket := bucketName
               Name := Join [tempImagePath, createTempImagePath, filename]
               ContentType := TypeByExtension E.mime (Ext filename)
               Size := d2.length }]
    ∧ (∀ p ∈ (secondUpload E filename d1 d2 objects).services.objects,
        p.1 = (bucketName, Join [tempImagePath, createTempImagePath, filename]) →
          p.2.data = d2)
    ∧ (firstUpload E filename d1 objects).w.status = some 200
    ∧ (secondUpload E filename d1 d2 objects).w.status = some 200 := by
  have h1 := memServices_run E filename d1 objects
  have h2 := memServices_run E filename d2
    (MemStore.put (bucketName, uploadPath filename)
      ⟨TypeByExtension E.mime (Ext filename), d1⟩ objects)
  simp only [firstUpload, secondUpload, h1]
  simp only [h2]
  refine ⟨by simp [storeWrites, preamble, uploadWriter, uploadPath],
    by simp [storeWrites, preamble, uploadWriter, uploadPath],
    by simp [steps, preamble, isOk], lookup_put _ _ _, lookup_put _ _ _,
    by simp [statResults, preamble, uploadPath], ?_, trivial, trivial⟩
  intro p hp hk
  rw [mem_put_same_key _ _ _ p hp hk]

theorem url_string_https (u : URL) (h1 : u.Scheme = "https") (h2 : u.Opaque = "")
    (h3 : u.Host ≠ "") : ∃ rest, u.String = "https://" ++ rest := by
  have hs : ("https" != "") = true := by decide
  have ho : (("" : String) != "") = false := by decide
  have hh : (u.Host != "") = true := by simpa [bne] using h3
  have key : ∀ a : String, "https" ++ (":" ++ ("//" ++ a)) = "https://" ++ a := by
    intro a
    apply String.ext
    simp [String.data_append]
  simp only [URL.String, h1, h2, hs, ho, hh, if_true, Bool.true_or, Bool.false_eq_true,
    if_false]
  cases u.User <;> split_ifs <;> simp only [String.append_assoc] <;> exact ⟨_, key _⟩

/-- C8, as the code has it. `getImageUrl` asks the URL resolver with the option
`Secure` set, for every blob key, and every request a run makes to the URL
resolver has `Secure` set. Provided the resolver keeps to that option (a URL it
returns for a `Secure` request has scheme `https` and a host), when every
collaborator call of the run succeeds the `Url` field of the JSON body written
is the string of the URL the resolver returned: an absolute URL with scheme
`https`, so a string that starts with `https://`. The handler itself never
inspects the URL it is given. -/
theorem serving_url_is_secure (S : Services σ) (E : Env) (r : Request) (st : σ)
    (fault : Option String) (hS : HonoursSecure S)
    (hread : ∃ file fh data, r.FormFile uploadImageKey = .ok (file, fh)
      ∧ file.content = .ok data)
    (hall : ∀ s ∈ steps (handleUploadImage S E r (World.init st (freshWriter fault))).calls,
      s.2 = true) :
    (∀ (x : World σ) (key : BlobKey),
      getImageUrl S x key = x.ServingURL S key { Secure := true })
    ∧ (∀ c ∈ servingURLCalls (handleUploadImage S E r (World.init st (freshWriter fault))).calls,
        c.2.1.Secure = true)
    ∧ ∃ (key : BlobKey) (url : URL) (body rest : String),
        servingURLCalls (handleUploadImage S E r (World.init st (freshWriter fault))).calls
          = [(key, { Secure := true }, .ok url)]
        ∧ jsonMarshal E.jsonQuote { Key := key, Url := url.String } = .ok body
        ∧ respWrites (handleUploadImage S E r (World.init st (freshWriter fault))).calls = [body]
        ∧ url.IsAbs = true
        ∧ url.Scheme = "https"
        ∧ url.String = "https://" ++ rest := by
  have ho := handleUploadImage_outcome S E r st (freshWriter fault)
  generalize handleUploadImage S E r (World.init st (freshWriter fault)) = out at ho hall
  refine ⟨fun x key => rfl, ?_, ?_⟩
  · cases ho <;> simp [servingURLCalls, preamble]
  · cases ho with
    | noFile err hF => exact absurd hread (not_readable_of_error hF)
    | readFails file fh err hF hR => exact absurd hread (not_readable_of_read_error hF hR)
    | respWriteFails file fh data n obj key url err st1 st2 st3 st4 st5 hF hR hW hC hS1 hB hU =>
      obtain ⟨hsch, hop, hhost⟩ := hS key st4 st5 url hU
      obtain ⟨rest, hrest⟩ := url_string_https url hsch hop hhost
      exact ⟨key, url, successBody E key url, rest, by simp [servingURLCalls, preamble],
        by simp [jsonMarshal, successBody], by simp [respWrites, preamble],
        by simp [URL.IsAbs, hsch], hsch, hrest⟩
    | done file fh data n obj key url m st1 st2 st3 st4 st5 hF hR hW hC hS1 hB hU =>
      obtain ⟨hsch, hop, hhost⟩ := hS key st4 st5 url hU
      obtain ⟨rest, hrest⟩ := url_string_https url hsch hop hhost
      exact ⟨key, url, successBody E key url, rest, by simp [servingURLCalls, preamble],
        by simp [jsonMarshal, successBody], by simp [respWrites, preamble],
        by simp [URL.IsAbs, hsch], hsch, hrest⟩
    | _ => simp [steps, preamble, isOk] at hall

theorem memServices_honoursSecure : HonoursSecure memServices := by
  intro key st st1 url h
  simp only [memServices, Prod.mk.injEq, Except.ok.injEq] at h
  obtain ⟨rfl, _⟩ := h
  refine ⟨rfl, rfl, ?_⟩
  show ("lh3.googleusercontent.com" : String) ≠ ""
  decide

/-- Witness for C8: the upload of `cat.jpg` to the in-memory services. -/
theorem serving_url_is_secure_witness :
    ∃ (key : BlobKey) (url : URL) (body rest : String),
        servingURLCalls (catRun none).calls = [(key, { Secure := true }, .ok url)]
        ∧ jsonMarshal plainEnv.jsonQuote { Key := key, Url := url.String } = .ok body
        ∧ respWrites (catRun none).calls = [body]
        ∧ url.IsAbs = true
        ∧ url.Scheme = "https"
        ∧ url.String = "https://" ++ rest :=
  (serving_url_is_secure memServices plainEnv catRequest {} none memServices_honoursSecure
    ⟨_, _, _, rfl, rfl⟩ (by decide)).2.2

/-- C8 as stated fails: the upload of `cat.jpg` (content type `image/jpeg`) to
services whose URL resolver answers the `Secure` request with a plain `http`
URL succeeds (all five collaborator calls succeed, no `http.Error`, status
200), and the `Url` field of the JSON body written is that `http` URL. -/
theorem serving_url_is_secure_counterexample :
    (∃ file fh data, catRequest.FormFile uploadImageKey = .ok (file, fh)
      ∧ file.content = .ok data)
    ∧ (storeWrites plainHttpRun.calls).map (fun p => p.1.ContentType) = ["image/jpeg"]
    ∧ steps plainHttpRun.calls
        = [(.write, true), (.close, true), (.stat, true), (.blobKey, true), (.servingURL, true)]
    ∧ httpErrors plainHttpRun.calls = []
    ∧ plainHttpRun.w.status = some 200
    ∧ ∃ (key : BlobKey) (url : URL) (body : String),
        servingURLCalls plainHttpRun.calls = [(key, { Secure := true }, .ok url)]
        ∧ jsonMarshal plainEnv.jsonQuote { Key := key, Url := url.String } = .ok body
        ∧ respWrites plainHttpRun.calls = [body]
        ∧ plainHttpRun.w.body = body
        ∧ url.Scheme = "http"
        ∧ url.String = "http://localhost:8080/_ah/img/" ++ key :=
  ⟨⟨_, _, _, rfl, rfl⟩, by decide, by decide, by decide, by decide,
    _, _, _, rfl, rfl, rfl, rfl, rfl, rfl⟩


end GcsBlob
